import Mathlib

/-!
Verification of the ANARI USD middleware transfer client
(`tools/Send data/file_sender.py`).

The development shallowly embeds the protocol-relevant core of the client:

* `calculate_sha256` — a byte-level model of `hashlib.sha256(data).hexdigest()`
  (FIPS 180-4 SHA-256, rendered as lowercase hex), validated below against the
  standard test vectors.
* `ANARIUSDClient` state and operations — `connect`, `disconnect`, `send_file`,
  `send_message`, `send_json_message`.  Bytes are `List Nat` (each < 256),
  machine I/O is an explicit environment `Env` (file system contents, transport
  send/receive outcomes), and each operation returns the value the Python code
  returns (`Bool`) together with its observable effects: console reports, the
  socket send calls it made (each with its SNDMORE flag), and the number of
  receive attempts.  Python exceptions are modelled with `Except` in the
  `...Body` functions that mirror the `try:` blocks; the public operations
  wrap the bodies exactly as the `except` clauses do.
* a JSON value model with a serializer faithful to `json.dumps(data, indent=2)`
  (ensure_ascii escaping, two-space indentation, integer numbers) and, for the
  receiving side, a reference JSON parser `loads` (numbers restricted to
  integers, as no float literal is produced by the modelled values).

Decorative console prints (sizes, hash prefixes, emojis) are collapsed into
the `Report` constructors that matter for the observable outcome kinds.
-/

/-! ## SHA-256 (model of `hashlib.sha256`) -/

/-- Modulus for 32-bit word arithmetic in SHA-256, 2^32. -/
def M32 : Nat := 4294967296

def add32 (a b : Nat) : Nat := (a + b) % M32

def rotr32 (n x : Nat) : Nat := ((x >>> n) ||| (x <<< (32 - n))) % M32

def xor3 (a b c : Nat) : Nat := (a ^^^ b) ^^^ c

def bigS0 (x : Nat) : Nat := xor3 (rotr32 2 x) (rotr32 13 x) (rotr32 22 x)

def bigS1 (x : Nat) : Nat := xor3 (rotr32 6 x) (rotr32 11 x) (rotr32 25 x)

def smallS0 (x : Nat) : Nat := xor3 (rotr32 7 x) (rotr32 18 x) (x >>> 3)

def smallS1 (x : Nat) : Nat := xor3 (rotr32 17 x) (rotr32 19 x) (x >>> 10)

def chF (x y z : Nat) : Nat := (x &&& y) ^^^ ((x ^^^ 4294967295) &&& z)

def majF (x y z : Nat) : Nat := xor3 (x &&& y) (x &&& z) (y &&& z)

/-- The eight 32-bit working variables of SHA-256. -/
structure Hash8 where
  a : Nat
  b : Nat
  c : Nat
  d : Nat
  e : Nat
  f : Nat
  g : Nat
  h : Nat
  deriving DecidableEq, Repr

def sha256K : List Nat :=
  [1116352408, 1899447441, 3049323471, 3921009573, 961987163, 1508970993,
   2453635748, 2870763221, 3624381080, 310598401, 607225278, 1426881987,
   1925078388, 2162078206, 2614888103, 3248222580, 3835390401, 4022224774,
   264347078, 604807628, 770255983, 1249150122, 1555081692, 1996064986,
   2554220882, 2821834349, 2952996808, 3210313671, 3336571891, 3584528711,
   113926993, 338241895, 666307205, 773529912, 1294757372, 1396182291,
   1695183700, 1986661051, 2177026350, 2456956037, 2730485921, 2820302411,
   3259730800, 3345764771, 3516065817, 3600352804, 4094571909, 275423344,
   430227734, 506948616, 659060556, 883997877, 958139571, 1322822218,
   1537002063, 1747873779, 1955562222, 2024104815, 2227730452, 2361852424,
   2428436474, 2756734187, 3204031479, 3329325298]

def sha256H0 : Hash8 :=
  ⟨1779033703, 3144134277, 1013904242, 2773480762,
   1359893119, 2600822924, 528734635, 1541459225⟩

/-- One SHA-256 compression round, consuming one (K, W) pair. -/
def roundStep (st : Hash8) (kw : Nat × Nat) : Hash8 :=
  let t1 := add32 st.h (add32 (bigS1 st.e) (add32 (chF st.e st.f st.g) (add32 kw.1 kw.2)))
  let t2 := add32 (bigS0 st.a) (majF st.a st.b st.c)
  ⟨add32 t1 t2, st.a, st.b, st.c, add32 st.d t1, st.e, st.f, st.g⟩

/-- Combine 4 big-endian bytes into a 32-bit word, head of the list first. -/
def word4 (l : List Nat) : Nat :=
  (l.getD 0 0) * 16777216 + (l.getD 1 0) * 65536 + (l.getD 2 0) * 256 + l.getD 3 0

/-- Split a 64-byte block into 16 big-endian 32-bit words. -/
def toWords : Nat → List Nat → List Nat
  | 0, _ => []
  | n + 1, l => word4 (l.take 4) :: toWords n (l.drop 4)

def schedStep (ws : List Nat) : List Nat :=
  let t := ws.length
  ws ++ [add32 (smallS1 (ws.getD (t - 2) 0))
          (add32 (ws.getD (t - 7) 0) (add32 (smallS0 (ws.getD (t - 15) 0)) (ws.getD (t - 16) 0)))]

/-- Extend the 16 message-schedule words to 64 by iterating `schedStep`. -/
def sched : Nat → List Nat → List Nat
  | 0, ws => ws
  | n + 1, ws => sched n (schedStep ws)

def add8 (x y : Hash8) : Hash8 :=
  ⟨add32 x.a y.a, add32 x.b y.b, add32 x.c y.c, add32 x.d y.d,
   add32 x.e y.e, add32 x.f y.f, add32 x.g y.g, add32 x.h y.h⟩

/-- Process one 64-byte block. -/
def sha256Block (st : Hash8) (block : List Nat) : Hash8 :=
  let ws := sched 48 (toWords 16 block)
  add8 st ((sha256K.zip ws).foldl roundStep st)

def sha256Blocks : Nat → Hash8 → List Nat → Hash8
  | 0, st, _ => st
  | n + 1, st, l => sha256Blocks n (sha256Block st (l.take 64)) (l.drop 64)

/-- SHA-256 padding: append 0x80, zeros, and the 64-bit big-endian bit length. -/
def sha256Pad (msg : List Nat) : List Nat :=
  let padLen := (119 - msg.length % 64) % 64
  let bitLen := 8 * msg.length
  msg ++ 128 :: List.replicate padLen 0 ++
    [bitLen >>> 56 % 256, bitLen >>> 48 % 256, bitLen >>> 40 % 256, bitLen >>> 32 % 256,
     bitLen >>> 24 % 256, bitLen >>> 16 % 256, bitLen >>> 8 % 256, bitLen % 256]

/-- Big-endian bytes of one 32-bit word. -/
def wordBytes (w : Nat) : List Nat :=
  [w / 16777216 % 256, w / 65536 % 256, w / 256 % 256, w % 256]

/-- SHA-256 digest of a byte sequence, as its 32 bytes. -/
def sha256 (msg : List Nat) : List Nat :=
  let p := sha256Pad msg
  let st := sha256Blocks (p.length / 64) sha256H0 p
  wordBytes st.a ++ wordBytes st.b ++ wordBytes st.c ++ wordBytes st.d ++
  wordBytes st.e ++ wordBytes st.f ++ wordBytes st.g ++ wordBytes st.h

/-- The sixteen lowercase hexadecimal digits. -/
def hexDigitChars : List Char := "0123456789abcdef".data

def hexDigit (k : Nat) : Char := hexDigitChars.getD k '0'

def byteToHexChars (n : Nat) : List Char := [hexDigit (n / 16), hexDigit (n % 16)]

/-- Model of `ANARIUSDClient.calculate_sha256`, i.e. of
`hashlib.sha256(data).hexdigest()`: the SHA-256 digest rendered as lowercase
hex text. -/
def calculate_sha256 (data : List Nat) : String :=
  String.mk ((sha256 data).flatMap byteToHexChars)

/-! ## Frames, transport environment and client state -/

/-- One ZeroMQ frame: `send_string` sends a text frame, `send` a raw-bytes
frame. -/
inductive Frame where
  | text (s : String)
  | bin (b : List Nat)
  deriving DecidableEq, Repr

/-- One socket send call: the frame handed to the transport and whether the
`zmq.SNDMORE` flag was passed. -/
structure SendEv where
  frame : Frame
  more : Bool
  deriving DecidableEq, Repr

/-- Error kinds a modelled operation body can raise (Python exceptions). -/
inductive PyErr where
  | zmqConn
  | zmqSend
  | zmqRecv
  | osError
  deriving DecidableEq, Repr

/-- Outcome of a `recv_string` call: a reply, `zmq.Again` (receive timeout
expiry), or a hard receive error. -/
inductive RecvRes where
  | reply (s : String)
  | again
  | fail
  deriving DecidableEq, Repr

/-- What the file system holds at a path, distinguishing the two checks the
code performs: `absent` means `Path(p).exists()` is False; `unreadable`
means the path exists but `open(p, 'rb')` / the read raises an `OSError`
(a directory, a permission-denied file); `file` is a readable regular file
with the given content bytes. -/
inductive FsEntry where
  | absent
  | unreadable
  | file (data : List Nat)
  deriving DecidableEq, Repr

/-- The environment a call runs against: the file-system state at each path,
the index of the first socket send call that raises (if any), the receive
outcome, and whether the two stages of `connect` (socket creation; option
setting / endpoint connection) succeed. -/
structure Env where
  fs : String → FsEntry
  sendFailsAt : Option Nat
  recv : RecvRes
  socketCreateOk : Bool
  socketSetupOk : Bool

/-- Outcome-relevant console reports of the client (its ❌/⚠️/✅ prints). -/
inductive Report where
  | notConnected
  | fileNotFound (path : String)
  | serverReply (r : String)
  | timeoutNoReply
  | errorSending (e : PyErr)
  | errorEncodingJSON
  deriving DecidableEq, Repr

/-- Observable effects of one operation: reports printed, socket send calls
made, and number of receive attempts. -/
structure Effects where
  reports : List Report
  sends : List SendEv
  recvs : Nat
  deriving DecidableEq, Repr

/-- The DEALER socket handle; `closed` records whether `close()` was called. -/
structure Sock where
  closed : Bool
  deriving DecidableEq, Repr

/-- The client's own state: endpoint, socket handle (None before first
`connect`), the `connected` flag, and whether the ZMQ context is still
alive (`term()` not yet called). -/
structure Client where
  endpoint : String
  socket : Option Sock
  connected : Bool
  ctxAlive : Bool
  deriving DecidableEq, Repr

/-- What a public send operation hands back and leaves behind. -/
structure OpOut where
  ret : Bool
  fx : Effects
  client : Client
  deriving DecidableEq, Repr

/-- Model of `ANARIUSDClient.__init__`: no socket, not connected, fresh
context. -/
def ANARIUSDClient.init (endpoint : String) : Client :=
  ⟨endpoint, none, false, true⟩

/-- Split a character list at every slash. -/
def splitSlash (l : List Char) : List (List Char) :=
  l.foldr
    (fun c acc =>
      if c = '/' then [] :: acc
      else
        match acc with
        | [] => [[c]]
        | a :: rest => (c :: a) :: rest)
    [[]]

/-- Model of `pathlib.Path(p).name` for POSIX paths: the last nonempty
component. -/
def pathName (p : String) : String :=
  String.mk ((((splitSlash p.data).filter (fun s => s ≠ [])).getLast?).getD [])

/-- Attempt a list of socket send calls in order: if the environment makes
call `i` raise and `i` falls inside this list, the calls before it went
through and the error is raised. -/
def attemptSends (env : Env) (evs : List SendEv) : List SendEv × Option PyErr :=
  match env.sendFailsAt with
  | some i => if i < evs.length then (evs.take i, some PyErr.zmqSend) else (evs, none)
  | none => (evs, none)

/-- The three send calls of `send_file`:
`send_string(filename, SNDMORE); send(file_data, SNDMORE); send_string(file_hash)`. -/
def fileSendEvents (name : String) (data : List Nat) (hash : String) : List SendEv :=
  [⟨Frame.text name, true⟩, ⟨Frame.bin data, true⟩, ⟨Frame.text hash, false⟩]

/-- Body of the `try:` block of `send_file` (runs only when connected):
the `Path(p).exists()` check (False prints File-not-found and returns
False), then `open`/read — which raises an `OSError` out of the body for an
existing-but-unreadable path — then hash, three sends, reply wait.
`Except.error` is a Python exception escaping the body to the `except`
clause. -/
def ANARIUSDClient.send_fileBody (env : Env) (path : String) :
    Except PyErr Bool × Effects :=
  match env.fs path with
  | FsEntry.absent => (Except.ok false, ⟨[Report.fileNotFound path], [], 0⟩)
  | FsEntry.unreadable => (Except.error PyErr.osError, ⟨[], [], 0⟩)
  | FsEntry.file data =>
    let hash := calculate_sha256 data
    let name := pathName path
    match attemptSends env (fileSendEvents name data hash) with
    | (evs, some e) => (Except.error e, ⟨[], evs, 0⟩)
    | (evs, none) =>
      match env.recv with
      | RecvRes.reply r => (Except.ok true, ⟨[Report.serverReply r], evs, 1⟩)
      | RecvRes.again => (Except.ok false, ⟨[Report.timeoutNoReply], evs, 1⟩)
      | RecvRes.fail => (Except.error PyErr.zmqRecv, ⟨[], evs, 1⟩)

/-- Model of `ANARIUSDClient.send_file`: connected guard, then the body with
its `except` clause converting any exception into a printed error and a
`False` return.  The client state is never modified. -/
def ANARIUSDClient.send_file (env : Env) (c : Client) (path : String) : OpOut :=
  if c.connected then
    match ANARIUSDClient.send_fileBody env path with
    | (Except.ok b, fx) => ⟨b, fx, c⟩
    | (Except.error e, fx) =>
      ⟨false, { fx with reports := fx.reports ++ [Report.errorSending e] }, c⟩
  else ⟨false, ⟨[Report.notConnected], [], 0⟩, c⟩

/-- Body of the `try:` block of `send_message`: one send call, reply wait. -/
def ANARIUSDClient.send_messageBody (env : Env) (message : String) :
    Except PyErr Bool × Effects :=
  match attemptSends env [⟨Frame.text message, false⟩] with
  | (evs, some e) => (Except.error e, ⟨[], evs, 0⟩)
  | (evs, none) =>
    match env.recv with
    | RecvRes.reply r => (Except.ok true, ⟨[Report.serverReply r], evs, 1⟩)
    | RecvRes.again => (Except.ok false, ⟨[Report.timeoutNoReply], evs, 1⟩)
    | RecvRes.fail => (Except.error PyErr.zmqRecv, ⟨[], evs, 1⟩)

/-- Model of `ANARIUSDClient.send_message`. -/
def ANARIUSDClient.send_message (env : Env) (c : Client) (message : String) : OpOut :=
  if c.connected then
    match ANARIUSDClient.send_messageBody env message with
    | (Except.ok b, fx) => ⟨b, fx, c⟩
    | (Except.error e, fx) =>
      ⟨false, { fx with reports := fx.reports ++ [Report.errorSending e] }, c⟩
  else ⟨false, ⟨[Report.notConnected], [], 0⟩, c⟩

/-- Body of the two stages of `connect` that can raise: socket creation,
then option setting and endpoint connection.  On the second-stage failure
the freshly created socket stays assigned (`self.socket = ...` already
ran) while `connected` keeps its previous value. -/
def ANARIUSDClient.connectBody (env : Env) (c : Client) : Except PyErr Bool × Client :=
  if env.socketCreateOk then
    let c1 := { c with socket := some ⟨false⟩ }
    if env.socketSetupOk then (Except.ok true, { c1 with connected := true })
    else (Except.error PyErr.zmqConn, c1)
  else (Except.error PyErr.zmqConn, c)

/-- Model of `ANARIUSDClient.connect`: the body under its `except` clause,
which prints the failure and returns `False`. -/
def ANARIUSDClient.connect (env : Env) (c : Client) : Bool × Client :=
  match ANARIUSDClient.connectBody env c with
  | (Except.ok b, c1) => (b, c1)
  | (Except.error _, c1) => (false, c1)

/-- Model of `ANARIUSDClient.disconnect`: close the socket when present,
terminate the context, clear `connected`.  `Socket.close()` and
`Context.term()` are modelled as total (they raise no exception here),
and `self.socket` is not reset to None — exactly as in the source. -/
def ANARIUSDClient.disconnect (c : Client) : Client :=
  { c with socket := c.socket.map (fun _ => ⟨true⟩), ctxAlive := false, connected := false }

/-- Group a trace of send calls into the multipart messages the transport
delivers: a message is delivered when a frame without SNDMORE is sent;
a trailing run of SNDMORE frames is still pending and delivers nothing. -/
def multipartAux : List SendEv → List Frame → List (List Frame)
  | [], _ => []
  | ⟨f, true⟩ :: rest, acc => multipartAux rest (acc ++ [f])
  | ⟨f, false⟩ :: rest, acc => (acc ++ [f]) :: multipartAux rest []

def multipartMessages (evs : List SendEv) : List (List Frame) :=
  multipartAux evs []

/-- The receiving side of the file envelope: a 3-frame multipart message
decodes to (filename, content, digest). -/
def decodeFileEnvelope : List Frame → Option (String × List Nat × String)
  | [Frame.text n, Frame.bin b, Frame.text h] => some (n, b, h)
  | _ => none

/-! ## JSON values and `json.dumps(data, indent=2)` -/

mutual
/-- Python values passed to `send_json_message`: None, bool, int, str, list,
dict (string keys, insertion order), or a value `json.dumps` cannot
serialize (`badval`, standing for any object raising `TypeError`). -/
inductive PyVal where
  | null
  | bool (b : Bool)
  | int (n : Int)
  | str (s : List Char)
  | arr (xs : PyArr)
  | dict (kvs : PyObj)
  | badval
/-- A Python list of values. -/
inductive PyArr where
  | nil
  | cons (hd : PyVal) (tl : PyArr)
/-- A Python dict as an ordered key/value sequence. -/
inductive PyObj where
  | nil
  | cons (key : List Char) (val : PyVal) (tl : PyObj)
end

/-- Opening curly bracket character. -/
def lbrace : Char := Char.ofNat 123

/-- Closing curly bracket character. -/
def rbrace : Char := Char.ofNat 125

def spaces (n : Nat) : List Char := List.replicate n ' '

/-- Four lowercase hex digits of a value below 2^16 (Python's `\uXXXX`). -/
def hex4 (n : Nat) : List Char :=
  [hexDigit (n / 4096 % 16), hexDigit (n / 256 % 16), hexDigit (n / 16 % 16), hexDigit (n % 16)]

/-- Model of Python's `ensure_ascii` JSON string escaping of one character:
shorthand escapes, printable ASCII kept, everything else as `\uXXXX`
(a surrogate pair for astral code points). -/
def escChar (c : Char) : List Char :=
  if c = '"' then ['\\', '"']
  else if c = '\\' then ['\\', '\\']
  else if c.toNat = 10 then ['\\', 'n']
  else if c.toNat = 9 then ['\\', 't']
  else if c.toNat = 13 then ['\\', 'r']
  else if c.toNat = 8 then ['\\', 'b']
  else if c.toNat = 12 then ['\\', 'f']
  else if 32 ≤ c.toNat ∧ c.toNat ≤ 126 then [c]
  else if c.toNat < 65536 then '\\' :: 'u' :: hex4 c.toNat
  else '\\' :: 'u' :: hex4 (55296 + (c.toNat - 65536) / 1024) ++
       '\\' :: 'u' :: hex4 (56320 + (c.toNat - 65536) % 1024)

def escString (s : List Char) : List Char := s.flatMap escChar

def digitChar10 (d : Nat) : Char := Char.ofNat (48 + d)

/-- Little-endian decimal digit characters of a positive number, by fueled
division. -/
def natCharsAux : Nat → Nat → List Char
  | 0, _ => []
  | fuel + 1, n => if n = 0 then [] else digitChar10 (n % 10) :: natCharsAux fuel (n / 10)

/-- Decimal digits of a natural number, most significant first. -/
def natChars (n : Nat) : List Char :=
  if n = 0 then ['0'] else (natCharsAux n n).reverse

/-- Python's decimal representation of an int. -/
def intChars (n : Int) : List Char :=
  if n < 0 then '-' :: natChars (-n).toNat else natChars n.toNat

mutual
/-- Model of `json.dumps(·, indent=2)` at indentation level `ind`:
containers put every item on its own line indented by `ind + 2`, keys are
followed by a colon and one space, items are separated by a comma, and the
closing bracket sits at level `ind`.  Empty containers print inline. -/
def encVal : PyVal → Nat → List Char
  | PyVal.null, _ => ['n', 'u', 'l', 'l']
  | PyVal.bool true, _ => ['t', 'r', 'u', 'e']
  | PyVal.bool false, _ => ['f', 'a', 'l', 's', 'e']
  | PyVal.int n, _ => intChars n
  | PyVal.str s, _ => '"' :: escString s ++ ['"']
  | PyVal.arr PyArr.nil, _ => ['[', ']']
  | PyVal.arr (PyArr.cons x tl), ind =>
      '[' :: '\n' :: spaces (ind + 2) ++ encVal x (ind + 2) ++ encArrTail tl (ind + 2) ++
      '\n' :: spaces ind ++ [']']
  | PyVal.dict PyObj.nil, _ => [lbrace, rbrace]
  | PyVal.dict (PyObj.cons k v tl), ind =>
      lbrace :: '\n' :: spaces (ind + 2) ++ ('"' :: escString k ++ ['"']) ++ ':' :: ' ' ::
      encVal v (ind + 2) ++ encObjTail tl (ind + 2) ++ '\n' :: spaces ind ++ [rbrace]
  | PyVal.badval, _ => []
/-- Remaining items of a list being serialized. -/
def encArrTail : PyArr → Nat → List Char
  | PyArr.nil, _ => []
  | PyArr.cons x tl, ind => ',' :: '\n' :: spaces ind ++ encVal x ind ++ encArrTail tl ind
/-- Remaining key/value pairs of a dict being serialized. -/
def encObjTail : PyObj → Nat → List Char
  | PyObj.nil, _ => []
  | PyObj.cons k v tl, ind =>
      ',' :: '\n' :: spaces ind ++ ('"' :: escString k ++ ['"']) ++ ':' :: ' ' ::
      encVal v ind ++ encObjTail tl ind
end

mutual
/-- Whether a value contains an unserializable object (making `json.dumps`
raise `TypeError`). -/
def hasBadV : PyVal → Bool
  | PyVal.badval => true
  | PyVal.arr xs => hasBadA xs
  | PyVal.dict kvs => hasBadO kvs
  | _ => false
def hasBadA : PyArr → Bool
  | PyArr.nil => false
  | PyArr.cons x tl => hasBadV x || hasBadA tl
def hasBadO : PyObj → Bool
  | PyObj.nil => false
  | PyObj.cons _ v tl => hasBadV v || hasBadO tl
end

/-- Model of `json.dumps(data, indent=2)`: the serialized text, or an error
for unserializable input. -/
def dumps (v : PyVal) : Except Unit String :=
  if hasBadV v then Except.error () else Except.ok (String.mk (encVal v 0))

/-- Model of `ANARIUSDClient.send_json_message`: serialize, then delegate the
serialized text to `send_message`; a serialization failure is reported and
nothing is sent. -/
def ANARIUSDClient.send_json_message (env : Env) (c : Client) (data : PyVal) : OpOut :=
  match dumps data with
  | Except.ok s => ANARIUSDClient.send_message env c s
  | Except.error _ => ⟨false, ⟨[Report.errorEncodingJSON], [], 0⟩, c⟩

/-! ## Reference JSON parser (the receiving side of C8's round trip) -/

def isWsC (c : Char) : Bool := c = ' ' || c = '\n' || c = '\t' || c = '\r'

def skipWs (s : List Char) : List Char := s.dropWhile isWsC

def isDigitC (c : Char) : Bool := 48 ≤ c.toNat && c.toNat ≤ 57

/-- Value of one hexadecimal digit character, upper or lower case. -/
def hexVal (c : Char) : Option Nat :=
  if 48 ≤ c.toNat && c.toNat ≤ 57 then some (c.toNat - 48)
  else if 97 ≤ c.toNat && c.toNat ≤ 102 then some (c.toNat - 87)
  else if 65 ≤ c.toNat && c.toNat ≤ 70 then some (c.toNat - 55)
  else none

/-- Read four hex digits. -/
def readHex4 : List Char → Option (Nat × List Char)
  | c1 :: c2 :: c3 :: c4 :: r =>
    match hexVal c1, hexVal c2, hexVal c3, hexVal c4 with
    | some a, some b, some c, some d => some (a * 4096 + b * 256 + c * 16 + d, r)
    | _, _, _, _ => none
  | _ => none

/-- Resolve one JSON escape sequence (the input starts after the backslash):
return the decoded character and the remaining input.  A high/low surrogate
escape pair is combined into one code point. -/
def parseEscape (rest : List Char) : Option (Char × List Char) :=
  match rest with
  | [] => none
  | e :: r =>
    if e = 'n' then some ('\n', r)
    else if e = 't' then some ('\t', r)
    else if e = 'r' then some ('\r', r)
    else if e = 'b' then some (Char.ofNat 8, r)
    else if e = 'f' then some (Char.ofNat 12, r)
    else if e = '"' then some ('"', r)
    else if e = '\\' then some ('\\', r)
    else if e = '/' then some ('/', r)
    else if e = 'u' then
      match readHex4 r with
      | none => none
      | some (h4, r1) =>
        if 55296 ≤ h4 && h4 ≤ 56319 then
          match r1 with
          | b1 :: b2 :: r2 =>
            if b1 = '\\' && b2 = 'u' then
              match readHex4 r2 with
              | none => none
              | some (l4, r3) =>
                if 56320 ≤ l4 && l4 ≤ 57343 then
                  some (Char.ofNat (65536 + (h4 - 55296) * 1024 + (l4 - 56320)), r3)
                else none
            else none
          | _ => none
        else some (Char.ofNat h4, r1)
    else none

/-- Parse the body of a JSON string literal (after the opening quote) up to
its closing quote, resolving escapes via `parseEscape`. -/
def parseStringBody : Nat → List Char → Option (List Char × List Char)
  | 0, _ => none
  | fuel + 1, s =>
    match s with
    | [] => none
    | c :: rest =>
      if c = '"' then some ([], rest)
      else if c = '\\' then
        match parseEscape rest with
        | none => none
        | some (d, r) => (parseStringBody fuel r).map (fun p => (d :: p.1, p.2))
      else (parseStringBody fuel rest).map (fun p => (c :: p.1, p.2))

def digitsToNat (l : List Char) : Nat :=
  Nat.ofDigits 10 ((l.map (fun c => c.toNat - 48)).reverse)

/-- Parse a JSON integer (an optional minus sign and a nonempty digit run). -/
def parseNumber (s : List Char) : Option (Int × List Char) :=
  match s with
  | '-' :: r =>
    let ds := r.takeWhile isDigitC
    if ds = [] then none else some (-(digitsToNat ds : Int), r.dropWhile isDigitC)
  | _ =>
    let ds := s.takeWhile isDigitC
    if ds = [] then none else some ((digitsToNat ds : Int), s.dropWhile isDigitC)

/-- What the fueled parser is currently reading: a value, the remaining items
of a list (after the first), or the remaining pairs of a dict. -/
inductive PMode where
  | val
  | arrTail
  | objTail

/-- A parse result in the corresponding mode. -/
inductive PRes where
  | v (x : PyVal)
  | items (xs : PyArr)
  | fields (kvs : PyObj)

/-- Reference recursive-descent JSON parser, structurally recursive on fuel.
In mode `val` it skips whitespace and reads one JSON value (numbers
restricted to integers); `arrTail` and `objTail` read `, item`* up to the
closing bracket. -/
def parseF : Nat → PMode → List Char → Option (PRes × List Char)
  | 0, _, _ => none
  | fuel + 1, PMode.val, s =>
    match skipWs s with
    | [] => none
    | c :: r =>
      if c = '"' then
        (parseStringBody (fuel + 1) r).map (fun p => (PRes.v (PyVal.str p.1), p.2))
      else if c = '[' then
        match skipWs r with
        | [] => none
        | c1 :: r1 =>
          if c1 = ']' then some (PRes.v (PyVal.arr PyArr.nil), r1)
          else
            match parseF fuel PMode.val (c1 :: r1) with
            | some (PRes.v x, r2) =>
              match parseF fuel PMode.arrTail r2 with
              | some (PRes.items xs, r3) => some (PRes.v (PyVal.arr (PyArr.cons x xs)), r3)
              | _ => none
            | _ => none
      else if c = lbrace then
        match skipWs r with
        | [] => none
        | c2 :: r2 =>
          if c2 = rbrace then some (PRes.v (PyVal.dict PyObj.nil), r2)
          else if c2 = '"' then
            match parseStringBody (fuel + 1) r2 with
            | none => none
            | some (k, r3) =>
              match skipWs r3 with
              | [] => none
              | c3 :: r4 =>
                if c3 = ':' then
                  match parseF fuel PMode.val r4 with
                  | some (PRes.v x, r5) =>
                    match parseF fuel PMode.objTail r5 with
                    | some (PRes.fields kvs, r6) =>
                      some (PRes.v (PyVal.dict (PyObj.cons k x kvs)), r6)
                    | _ => none
                  | _ => none
                else none
          else none
      else if c = 't' then
        match r with
        | 'r' :: 'u' :: 'e' :: r2 => some (PRes.v (PyVal.bool true), r2)
        | _ => none
      else if c = 'f' then
        match r with
        | 'a' :: 'l' :: 's' :: 'e' :: r2 => some (PRes.v (PyVal.bool false), r2)
        | _ => none
      else if c = 'n' then
        match r with
        | 'u' :: 'l' :: 'l' :: r2 => some (PRes.v PyVal.null, r2)
        | _ => none
      else if c = '-' || isDigitC c then
        (parseNumber (c :: r)).map (fun p => (PRes.v (PyVal.int p.1), p.2))
      else none
  | fuel + 1, PMode.arrTail, s =>
    match skipWs s with
    | [] => none
    | c :: r =>
      if c = ']' then some (PRes.items PyArr.nil, r)
      else if c = ',' then
        match parseF fuel PMode.val r with
        | some (PRes.v x, r2) =>
          match parseF fuel PMode.arrTail r2 with
          | some (PRes.items xs, r3) => some (PRes.items (PyArr.cons x xs), r3)
          | _ => none
        | _ => none
      else none
  | fuel + 1, PMode.objTail, s =>
    match skipWs s with
    | [] => none
    | c :: r =>
      if c = rbrace then some (PRes.fields PyObj.nil, r)
      else if c = ',' then
        match skipWs r with
        | [] => none
        | c2 :: r2 =>
          if c2 = '"' then
            match parseStringBody (fuel + 1) r2 with
            | none => none
            | some (k, r3) =>
              match skipWs r3 with
              | [] => none
              | c3 :: r4 =>
                if c3 = ':' then
                  match parseF fuel PMode.val r4 with
                  | some (PRes.v x, r5) =>
                    match parseF fuel PMode.objTail r5 with
                    | some (PRes.fields kvs, r6) => some (PRes.fields (PyObj.cons k x kvs), r6)
                    | _ => none
                  | _ => none
                else none
          else none
      else none

def parseVal (fuel : Nat) (s : List Char) : Option (PyVal × List Char) :=
  match parseF fuel PMode.val s with
  | some (PRes.v x, r) => some (x, r)
  | _ => none

/-- Model of the receiver's `json.loads` (numbers restricted to integers):
parse one value and require only whitespace to remain. -/
def loads (s : String) : Option PyVal :=
  match parseVal (s.length + 2) s.data with
  | some (v, r) => if skipWs r = [] then some v else none
  | none => none

/-! ## Reachable client states -/

/-- One invocation of a public operation, with the environment it runs in. -/
inductive Op where
  | connectOp (env : Env)
  | disconnectOp
  | sendFileOp (env : Env) (path : String)
  | sendMessageOp (env : Env) (m : String)
  | sendJsonOp (env : Env) (v : PyVal)

/-- The client state after one public operation. -/
def stepOp (c : Client) : Op → Client
  | Op.connectOp env => (ANARIUSDClient.connect env c).2
  | Op.disconnectOp => ANARIUSDClient.disconnect c
  | Op.sendFileOp env p => (ANARIUSDClient.send_file env c p).client
  | Op.sendMessageOp env m => (ANARIUSDClient.send_message env c m).client
  | Op.sendJsonOp env v => (ANARIUSDClient.send_json_message env c v).client

/-- The client state reached by a sequence of public operations. -/
def runOps (c : Client) (ops : List Op) : Client := ops.foldl stepOp c

/-! ## Auxiliary definitions for the statements and proofs -/

/-- The head of `r`, if any, does not satisfy `p`. -/
def headNot (p : Char → Bool) : List Char → Prop
  | [] => True
  | c :: _ => p c = false

mutual
/-- Parser cost of a value: an upper bound on the fuel `parseF` consumes on
its serialization (independent of the magnitude of numbers and of the
indentation). -/
def pcostV : PyVal → Nat
  | PyVal.null => 1
  | PyVal.bool _ => 1
  | PyVal.int _ => 1
  | PyVal.str s => s.length + 1
  | PyVal.arr PyArr.nil => 1
  | PyVal.arr (PyArr.cons x tl) => pcostV x + pcostA tl + 1
  | PyVal.dict PyObj.nil => 1
  | PyVal.dict (PyObj.cons k v tl) => k.length + pcostV v + pcostO tl + 2
  | PyVal.badval => 1
def pcostA : PyArr → Nat
  | PyArr.nil => 1
  | PyArr.cons x tl => pcostV x + pcostA tl + 1
def pcostO : PyObj → Nat
  | PyObj.nil => 1
  | PyObj.cons k v tl => k.length + pcostV v + pcostO tl + 2
end

/-- The invariant of claim C10: a connected client has a socket handle. -/
def ClientInv (c : Client) : Prop := c.connected = true → c.socket.isSome = true

/-- No send call before index `n` raises in this environment. -/
def sendOkFrom (env : Env) (n : Nat) : Prop :=
  match env.sendFailsAt with
  | some i => n ≤ i
  | none => True

/-- A benign environment: empty file system, sends succeed, receive times
out, connecting succeeds. -/
def envBase : Env :=
  ⟨fun _ => FsEntry.absent, none, RecvRes.again, true, true⟩

/-- An environment exposing one readable file with the bytes of "hello". -/
def envHello : Env :=
  { envBase with fs := fun p =>
      if p = ("data/greeting.txt") then FsEntry.file [104, 101, 108, 108, 111]
      else FsEntry.absent }

/-- An environment where every file read succeeds but the reply times out. -/
def envTimeout : Env :=
  { envBase with fs := fun _ => FsEntry.file [104, 105] }

/-- An environment whose very first socket send call raises. -/
def envSendFail : Env :=
  { envBase with fs := fun _ => FsEntry.file [104, 105], sendFailsAt := some 0 }

/-- An environment where socket creation itself raises. -/
def envNoSocket : Env :=
  { envBase with socketCreateOk := false }

/-- An environment that answers every request with the reply "OK". -/
def envReplyOK : Env :=
  { envBase with fs := fun _ => FsEntry.file [104, 105], recv := RecvRes.reply ("OK") }

/-- An environment where every path exists but opening it raises (as for a
directory or a permission-denied file). -/
def envUnreadable : Env :=
  { envBase with fs := fun _ => FsEntry.unreadable }

/-- A connected client with a live socket. -/
def cConn : Client :=
  ⟨"tcp://localhost:5556", some ⟨false⟩, true, true⟩

/-- The value corresponding to the Python literal with key "a" and value 1. -/
def vA1 : PyVal :=
  PyVal.dict (PyObj.cons ['a'] (PyVal.int 1) PyObj.nil)

/-- Statement of the round-trip property at a given fuel, value position:
the parser reads back exactly the value whose serialization begins the
input. -/
def ParseOkV (fuel : Nat) : Prop :=
  ∀ (v : PyVal) (ind : Nat) (rest : List Char),
    hasBadV v = false → pcostV v ≤ fuel → headNot isDigitC rest →
    parseF fuel PMode.val (encVal v ind ++ rest) = some (PRes.v v, rest)

def ParseOkA (fuel : Nat) : Prop :=
  ∀ (xs : PyArr) (ind jnd : Nat) (rest : List Char),
    hasBadA xs = false → pcostA xs ≤ fuel → headNot isDigitC rest →
    parseF fuel PMode.arrTail (encArrTail xs ind ++ '\n' :: spaces jnd ++ ']' :: rest) =
      some (PRes.items xs, rest)

def ParseOkO (fuel : Nat) : Prop :=
  ∀ (kvs : PyObj) (ind jnd : Nat) (rest : List Char),
    hasBadO kvs = false → pcostO kvs ≤ fuel → headNot isDigitC rest →
    parseF fuel PMode.objTail (encObjTail kvs ind ++ '\n' :: spaces jnd ++ rbrace :: rest) =
      some (PRes.fields kvs, rest)

/-! ## Theorems -/

/-- FIPS 180-4 test vector: SHA-256 of the empty message. -/
example : calculate_sha256 [] = "e3b0c44298fc1c149afbf4c8996fb92427ae41e4649b934ca495991b7852b855" := by
  decide

/-- FIPS 180-4 test vector: SHA-256 of the bytes of "abc". -/
example : calculate_sha256 [97, 98, 99] = "ba7816bf8f01cfea414140de5dae2223b00361a396177a9cb410ff61f20015ad" := by
  decide

/-- Known digest of the bytes of "hello" (the spec's end-to-end scenario). -/
example : calculate_sha256 [104, 101, 108, 108, 111] = "2cf24dba5fb0a30e26e83b2ac5b9e29e1b161e5c1fa7425e73043362938b9824" := by
  decide

lemma hexDigit_mem (k : Nat) (h : k < 16) : hexDigit k ∈ hexDigitChars := by
  unfold hexDigit
  rw [List.getD_eq_getElem?_getD]
  have hlt : k < hexDigitChars.length := by
    simp [hexDigitChars]
    omega
  rw [List.getElem?_eq_getElem hlt]
  exact List.getElem_mem hlt

lemma byteToHexChars_mem (n : Nat) (hn : n < 256) :
    ∀ ch ∈ byteToHexChars n, ch ∈ hexDigitChars := by
  intro ch hch
  simp only [byteToHexChars, List.mem_cons, List.not_mem_nil, or_false] at hch
  rcases hch with h | h <;> subst h
  · exact hexDigit_mem _ (by omega)
  · exact hexDigit_mem _ (by omega)

lemma sha256_bytes_lt (data : List Nat) : ∀ b ∈ sha256 data, b < 256 := by
  intro b hb
  simp [sha256, wordBytes] at hb
  omega

lemma flatMap_hex_length (l : List Nat) : (l.flatMap byteToHexChars).length = 2 * l.length := by
  induction l with
  | nil => simp
  | cons a l ih =>
    simp [List.flatMap_cons, byteToHexChars, ih]
    omega

lemma sha256_length (data : List Nat) : (sha256 data).length = 32 := by
  simp [sha256, wordBytes]

/-- Claim C2: for every byte sequence b (including the empty one), the digest
is a 64-character string, all of whose characters are lowercase hex digits,
and it is determined by b alone — equal byte sequences yield equal digests.
(`calculate_sha256` is a pure total function of its byte argument, so it has
no side effects and no failure modes, and the filename is not an input.) -/
theorem claim_C2 (b : List Nat) :
    (calculate_sha256 b).length = 64 ∧
    (∀ ch ∈ (calculate_sha256 b).data, ch ∈ hexDigitChars) ∧
    (∀ b2, b = b2 → calculate_sha256 b = calculate_sha256 b2) := by
  refine ⟨?_, ?_, ?_⟩
  · show ((sha256 b).flatMap byteToHexChars).length = 64
    rw [flatMap_hex_length, sha256_length]
  · intro ch hch
    have hm : ch ∈ (sha256 b).flatMap byteToHexChars := hch
    rw [List.mem_flatMap] at hm
    rcases hm with ⟨x, hx, hch2⟩
    exact byteToHexChars_mem _ (sha256_bytes_lt b _ hx) _ hch2
  · intro b2 h
    rw [h]

/-- Witness for C2 at the empty byte sequence. -/
theorem claim_C2_witness :
    (calculate_sha256 []).length = 64 ∧ 'e' ∈ hexDigitChars ∧
    calculate_sha256 [] = calculate_sha256 [] :=
  ⟨(claim_C2 []).1, (claim_C2 []).2.1 'e' (by decide), (claim_C2 []).2.2 [] rfl⟩

/-- Claim C9: `disconnect` leaves every client Disconnected, is idempotent,
and is safe on a client that never successfully connected (it is a total
function, so it produces no fault on any state, including the state left
by a partly failed `connect`). -/
theorem claim_C9 (c : Client) :
    (ANARIUSDClient.disconnect c).connected = false ∧
    ANARIUSDClient.disconnect (ANARIUSDClient.disconnect c) = ANARIUSDClient.disconnect c ∧
    (∀ ep, (ANARIUSDClient.disconnect (ANARIUSDClient.init ep)).socket = none ∧
           (ANARIUSDClient.disconnect (ANARIUSDClient.init ep)).connected = false) := by
  refine ⟨rfl, ?_, fun ep => ⟨rfl, rfl⟩⟩
  cases c with
  | mk ep sock conn ctx => cases sock <;> rfl

lemma send_file_client (env : Env) (c : Client) (path : String) :
    (ANARIUSDClient.send_file env c path).client = c := by
  unfold ANARIUSDClient.send_file
  split
  · split <;> rfl
  · rfl

lemma send_message_client (env : Env) (c : Client) (m : String) :
    (ANARIUSDClient.send_message env c m).client = c := by
  unfold ANARIUSDClient.send_message
  split
  · split <;> rfl
  · rfl

lemma send_json_client (env : Env) (c : Client) (v : PyVal) :
    (ANARIUSDClient.send_json_message env c v).client = c := by
  unfold ANARIUSDClient.send_json_message
  split
  · exact send_message_client env c _
  · rfl

lemma stepOp_inv (c : Client) (op : Op) (h : ClientInv c) : ClientInv (stepOp c op) := by
  cases op with
  | connectOp env =>
    simp only [stepOp]
    unfold ANARIUSDClient.connect ANARIUSDClient.connectBody
    cases hc : env.socketCreateOk <;> cases hs : env.socketSetupOk <;>
      simp [hc, hs, ClientInv] at h ⊢ <;> intro hconn <;> simp_all
  | disconnectOp =>
    simp only [stepOp]
    intro hconn
    simp [ANARIUSDClient.disconnect] at hconn
  | sendFileOp env p =>
    simpa only [stepOp, send_file_client] using h
  | sendMessageOp env m =>
    simpa only [stepOp, send_message_client] using h
  | sendJsonOp env v =>
    simpa only [stepOp, send_json_client] using h

lemma runOps_inv (ops : List Op) : ∀ c : Client, ClientInv c → ClientInv (runOps c ops) := by
  induction ops with
  | nil => intro c h; exact h
  | cons op ops ih =>
    intro c h
    have h2 : runOps c (op :: ops) = runOps (stepOp c op) ops := rfl
    rw [h2]
    exact ih _ (stepOp_inv c op h)

/-- Claim C10: in every client state reachable from a fresh client by any
sequence of public operations, `connected = true` implies the socket handle
is present; hence every operation passing the connected guard operates on an
existing socket. -/
theorem claim_C10 (ep : String) (ops : List Op)
    (h : (runOps (ANARIUSDClient.init ep) ops).connected = true) :
    (runOps (ANARIUSDClient.init ep) ops).socket.isSome = true :=
  runOps_inv ops _ (fun hc => by simp [ANARIUSDClient.init] at hc) h

/-- Witness for C10: after a successful connect the client is connected and
holds a socket. -/
theorem claim_C10_witness :
    (runOps (ANARIUSDClient.init ("tcp://localhost:5556")) [Op.connectOp envBase]).connected = true ∧
    (runOps (ANARIUSDClient.init ("tcp://localhost:5556")) [Op.connectOp envBase]).socket.isSome = true :=
  ⟨rfl, claim_C10 _ _ rfl⟩

/-- Counterexample to claim C3 as stated: quantifying over every path that
does not resolve to a readable file also covers an existing-but-unreadable
path (a directory such as "/tmp" passes the `Path(p).exists()` check but
`open` raises).  There the code falls into the `except` clause and reports
the generic file-send error, not File-not-found — while still performing
zero socket sends and zero receive attempts. -/
theorem claim_C3_counterexample :
    cConn.connected = true ∧
    envUnreadable.fs ("/tmp") = FsEntry.unreadable ∧
    (ANARIUSDClient.send_file envUnreadable cConn ("/tmp")).fx.reports =
      [Report.errorSending PyErr.osError] ∧
    (ANARIUSDClient.send_file envUnreadable cConn ("/tmp")).fx.reports ≠
      [Report.fileNotFound ("/tmp")] ∧
    (ANARIUSDClient.send_file envUnreadable cConn ("/tmp")).fx.sends = [] ∧
    (ANARIUSDClient.send_file envUnreadable cConn ("/tmp")).ret = false :=
  ⟨rfl, rfl, rfl, by decide, rfl, rfl⟩

/-- Claim C3 (amended): on a connected client, `send_file` on a nonexistent
path reports File-not-found and performs zero socket sends and zero receive
attempts, returning failure with the state unchanged; on an
existing-but-unreadable path it equally returns failure with zero sends and
zero receive attempts and the state unchanged, but reports the generic
file-send error from the `except` clause instead of File-not-found. -/
theorem claim_C3 (env : Env) (c : Client) (path : String)
    (hconn : c.connected = true) :
    (env.fs path = FsEntry.absent →
      ANARIUSDClient.send_file env c path =
        ⟨false, ⟨[Report.fileNotFound path], [], 0⟩, c⟩) ∧
    (env.fs path = FsEntry.unreadable →
      ANARIUSDClient.send_file env c path =
        ⟨false, ⟨[Report.errorSending PyErr.osError], [], 0⟩, c⟩) := by
  refine ⟨fun hfs => ?_, fun hfs => ?_⟩
  · simp [ANARIUSDClient.send_file, hconn, ANARIUSDClient.send_fileBody, hfs]
  · simp [ANARIUSDClient.send_file, hconn, ANARIUSDClient.send_fileBody, hfs]

/-- Witness for C3 at a concrete connected client, on a missing path and on
an unreadable one. -/
theorem claim_C3_witness :
    cConn.connected = true ∧ envBase.fs ("/nonexistent/path") = FsEntry.absent ∧
    envUnreadable.fs ("/tmp") = FsEntry.unreadable ∧
    ANARIUSDClient.send_file envBase cConn ("/nonexistent/path") =
      ⟨false, ⟨[Report.fileNotFound ("/nonexistent/path")], [], 0⟩, cConn⟩ ∧
    ANARIUSDClient.send_file envUnreadable cConn ("/tmp") =
      ⟨false, ⟨[Report.errorSending PyErr.osError], [], 0⟩, cConn⟩ :=
  ⟨rfl, rfl, rfl,
   (claim_C3 envBase cConn ("/nonexistent/path") rfl).1 rfl,
   (claim_C3 envUnreadable cConn ("/tmp") rfl).2 rfl⟩

/-- Claim C5: while the client is Disconnected, `send_file`, `send_message`
and (for serializable values) `send_json_message`'s delegation all fail fast:
they return failure, report Not-connected, make no socket send and no receive
attempt, and leave the state unchanged. -/
theorem claim_C5 (env : Env) (c : Client) (h : c.connected = false) :
    (∀ path, ANARIUSDClient.send_file env c path =
      ⟨false, ⟨[Report.notConnected], [], 0⟩, c⟩) ∧
    (∀ m, ANARIUSDClient.send_message env c m =
      ⟨false, ⟨[Report.notConnected], [], 0⟩, c⟩) ∧
    (∀ v s, dumps v = Except.ok s →
      ANARIUSDClient.send_json_message env c v =
        ⟨false, ⟨[Report.notConnected], [], 0⟩, c⟩) := by
  refine ⟨fun path => ?_, fun m => ?_, fun v s hd => ?_⟩
  · simp [ANARIUSDClient.send_file, h]
  · simp [ANARIUSDClient.send_message, h]
  · simp [ANARIUSDClient.send_json_message, hd, ANARIUSDClient.send_message, h]

/-- Witness for C5 on a freshly initialized (never connected) client. -/
theorem claim_C5_witness :
    (ANARIUSDClient.init ("tcp://localhost:5556")).connected = false ∧
    dumps PyVal.null = Except.ok ("null") ∧
    ANARIUSDClient.send_file envBase (ANARIUSDClient.init ("tcp://localhost:5556")) ("a.usd") =
      ⟨false, ⟨[Report.notConnected], [], 0⟩, ANARIUSDClient.init ("tcp://localhost:5556")⟩ ∧
    ANARIUSDClient.send_json_message envBase (ANARIUSDClient.init ("tcp://localhost:5556")) PyVal.null =
      ⟨false, ⟨[Report.notConnected], [], 0⟩, ANARIUSDClient.init ("tcp://localhost:5556")⟩ :=
  ⟨rfl, rfl,
   (claim_C5 envBase _ rfl).1 ("a.usd"),
   (claim_C5 envBase _ rfl).2.2 PyVal.null ("null") rfl⟩

/-- Claim C1: on a connected client, for a readable file with content `data`,
`send_file` hands the transport exactly the three frames base-name (text),
content (bytes) and digest (text), in this order, with SNDMORE on the first
two — so the trace forms exactly one delivered 3-frame multipart message,
byte-identical to the inputs, and the receiving side decodes it to
(name, content, digest(content)). -/
theorem claim_C1 (env : Env) (c : Client) (path : String) (data : List Nat)
    (hconn : c.connected = true) (hfs : env.fs path = FsEntry.file data)
    (hsend : env.sendFailsAt = none) :
    (ANARIUSDClient.send_file env c path).fx.sends =
      fileSendEvents (pathName path) data (calculate_sha256 data) ∧
    multipartMessages (ANARIUSDClient.send_file env c path).fx.sends =
      [[Frame.text (pathName path), Frame.bin data, Frame.text (calculate_sha256 data)]] ∧
    decodeFileEnvelope
        [Frame.text (pathName path), Frame.bin data, Frame.text (calculate_sha256 data)] =
      some (pathName path, data, calculate_sha256 data) := by
  rcases hr : env.recv with r | _ | _ <;>
    simp [ANARIUSDClient.send_file, hconn, ANARIUSDClient.send_fileBody, hfs, attemptSends,
      hsend, hr, fileSendEvents, multipartMessages, multipartAux, decodeFileEnvelope]

/-- The base name model agrees with `pathlib` on the witness path. -/
example : pathName ("data/greeting.txt") = "greeting.txt" := by decide

/-- Witness for C1: the "hello" file of the spec's end-to-end scenario. -/
theorem claim_C1_witness :
    cConn.connected = true ∧
    envHello.fs ("data/greeting.txt") = FsEntry.file [104, 101, 108, 108, 111] ∧
    envHello.sendFailsAt = none ∧
    multipartMessages (ANARIUSDClient.send_file envHello cConn ("data/greeting.txt")).fx.sends =
      [[Frame.text (pathName ("data/greeting.txt")), Frame.bin [104, 101, 108, 108, 111],
        Frame.text (calculate_sha256 [104, 101, 108, 108, 111])]] :=
  ⟨rfl, by decide, rfl,
   (claim_C1 envHello cConn ("data/greeting.txt") [104, 101, 108, 108, 111]
     rfl (by decide) rfl).2.1⟩

lemma send_message_ret (env : Env) (c : Client) (m : String) :
    (ANARIUSDClient.send_message env c m).ret = true ↔
      (c.connected = true ∧ sendOkFrom env 1 ∧ ∃ r, env.recv = RecvRes.reply r) := by
  cases hc : c.connected <;>
    rcases hs : env.sendFailsAt with _ | i <;>
      rcases hr : env.recv with r | _ | _ <;>
        simp only [ANARIUSDClient.send_message, ANARIUSDClient.send_messageBody, attemptSends,
          hc, hs, hr, sendOkFrom, List.length_cons, List.length_nil] <;>
        (try split_ifs) <;> (try simp_all) <;> (try omega)

lemma send_file_ret (env : Env) (c : Client) (path : String) :
    (ANARIUSDClient.send_file env c path).ret = true ↔
      (c.connected = true ∧ (∃ data, env.fs path = FsEntry.file data) ∧ sendOkFrom env 3 ∧
       ∃ r, env.recv = RecvRes.reply r) := by
  cases hc : c.connected <;>
    rcases hf : env.fs path with _ | _ | data <;>
      rcases hs : env.sendFailsAt with _ | i <;>
        rcases hr : env.recv with r | _ | _ <;>
          simp only [ANARIUSDClient.send_file, ANARIUSDClient.send_fileBody, attemptSends,
            fileSendEvents, hc, hf, hs, hr, sendOkFrom, List.length_cons, List.length_nil] <;>
          (try split_ifs) <;> (try simp_all) <;> (try omega)

lemma send_json_ret (env : Env) (c : Client) (v : PyVal) :
    (ANARIUSDClient.send_json_message env c v).ret = true ↔
      (hasBadV v = false ∧ c.connected = true ∧ sendOkFrom env 1 ∧
       ∃ r, env.recv = RecvRes.reply r) := by
  cases hb : hasBadV v
  · have hd : dumps v = Except.ok (String.mk (encVal v 0)) := by simp [dumps, hb]
    simp [ANARIUSDClient.send_json_message, hd, send_message_ret]
  · have hd : dumps v = Except.error () := by simp [dumps, hb]
    simp [ANARIUSDClient.send_json_message, hd]

/-- Counterexample to claim C4 as stated: the value returned to the caller is
a bare Boolean, so two different outcome kinds — File-not-found (an error
kind) and receive timeout — return the very same value `false` and are not
distinguishable from the returned value alone; the digest and reply text
appear only in the console reports, not in the returned value. -/
theorem claim_C4_counterexample :
    (ANARIUSDClient.send_file envBase cConn ("m.usd")).ret =
      (ANARIUSDClient.send_file envTimeout cConn ("m.usd")).ret ∧
    (ANARIUSDClient.send_file envBase cConn ("m.usd")).fx.reports =
      [Report.fileNotFound ("m.usd")] ∧
    (ANARIUSDClient.send_file envTimeout cConn ("m.usd")).fx.reports =
      [Report.timeoutNoReply] ∧
    (ANARIUSDClient.send_file envBase cConn ("m.usd")).ret = false :=
  ⟨rfl, rfl, rfl, rfl⟩

/-- Claim C4 (amended): each public send operation returns a single Boolean
which is `true` exactly on full success — connected, (for files) readable
path, all frames accepted by the transport, and a reply received; a timeout
and every error kind alike return `false`, and the digest and reply text are
reported on the console rather than carried in the returned value. -/
theorem claim_C4 (env : Env) (c : Client) (path m : String) (v : PyVal) :
    ((ANARIUSDClient.send_file env c path).ret = true ↔
      (c.connected = true ∧ (∃ data, env.fs path = FsEntry.file data) ∧ sendOkFrom env 3 ∧
       ∃ r, env.recv = RecvRes.reply r)) ∧
    ((ANARIUSDClient.send_message env c m).ret = true ↔
      (c.connected = true ∧ sendOkFrom env 1 ∧ ∃ r, env.recv = RecvRes.reply r)) ∧
    ((ANARIUSDClient.send_json_message env c v).ret = true ↔
      (hasBadV v = false ∧ c.connected = true ∧ sendOkFrom env 1 ∧
       ∃ r, env.recv = RecvRes.reply r)) :=
  ⟨send_file_ret env c path, send_message_ret env c m, send_json_ret env c v⟩

/-- Claim C6: every error raised inside the body of a public operation is
caught at the operation boundary and converted into a returned failure value
(with the error reported on the console); no exception propagates out of
`send_file`, `send_message`, `send_json_message` or `connect`.
(`disconnect` is a total function of the state — see C9 — whose modelled
`close()`/`term()` calls raise nothing.) -/
theorem claim_C6 (env : Env) (c : Client) :
    (∀ path e fx, c.connected = true →
      ANARIUSDClient.send_fileBody env path = (Except.error e, fx) →
      ANARIUSDClient.send_file env c path =
        ⟨false, ⟨fx.reports ++ [Report.errorSending e], fx.sends, fx.recvs⟩, c⟩) ∧
    (∀ m e fx, c.connected = true →
      ANARIUSDClient.send_messageBody env m = (Except.error e, fx) →
      ANARIUSDClient.send_message env c m =
        ⟨false, ⟨fx.reports ++ [Report.errorSending e], fx.sends, fx.recvs⟩, c⟩) ∧
    (∀ v, hasBadV v = true →
      ANARIUSDClient.send_json_message env c v =
        ⟨false, ⟨[Report.errorEncodingJSON], [], 0⟩, c⟩) ∧
    (∀ e c1, ANARIUSDClient.connectBody env c = (Except.error e, c1) →
      ANARIUSDClient.connect env c = (false, c1)) := by
  refine ⟨fun path e fx hconn hbody => ?_, fun m e fx hconn hbody => ?_,
          fun v hbad => ?_, fun e c1 hbody => ?_⟩
  · simp [ANARIUSDClient.send_file, hconn, hbody]
  · simp [ANARIUSDClient.send_message, hconn, hbody]
  · simp [ANARIUSDClient.send_json_message, dumps, hbad]
  · simp [ANARIUSDClient.connect, hbody]

/-- Witness for C6: a raising send call, a raising socket creation, and an
unserializable JSON value, each converted into a returned failure. -/
theorem claim_C6_witness :
    cConn.connected = true ∧
    ANARIUSDClient.send_fileBody envSendFail ("m.usd") =
      (Except.error PyErr.zmqSend, ⟨[], [], 0⟩) ∧
    ANARIUSDClient.send_file envSendFail cConn ("m.usd") =
      ⟨false, ⟨[Report.errorSending PyErr.zmqSend], [], 0⟩, cConn⟩ ∧
    ANARIUSDClient.connectBody envNoSocket cConn = (Except.error PyErr.zmqConn, cConn) ∧
    ANARIUSDClient.connect envNoSocket cConn = (false, cConn) ∧
    ANARIUSDClient.send_json_message envBase cConn PyVal.badval =
      ⟨false, ⟨[Report.errorEncodingJSON], [], 0⟩, cConn⟩ :=
  ⟨rfl, rfl,
   (claim_C6 envSendFail cConn).1 ("m.usd") PyErr.zmqSend ⟨[], [], 0⟩ rfl rfl,
   rfl,
   (claim_C6 envNoSocket cConn).2.2.2 PyErr.zmqConn cConn rfl,
   (claim_C6 envBase cConn).2.2.1 PyVal.badval rfl⟩

/-- Claim C7: `send_json_message` on an unserializable value reports the
serialization failure and performs no send and no receive (the transport is
never touched, the state unchanged); on a serializable value it delegates
exactly the serialized text to `send_message`. -/
theorem claim_C7 (env : Env) (c : Client) (v : PyVal) :
    (hasBadV v = true →
      ANARIUSDClient.send_json_message env c v =
        ⟨false, ⟨[Report.errorEncodingJSON], [], 0⟩, c⟩) ∧
    (∀ s, dumps v = Except.ok s →
      ANARIUSDClient.send_json_message env c v = ANARIUSDClient.send_message env c s) := by
  refine ⟨fun hbad => ?_, fun s hd => ?_⟩
  · simp [ANARIUSDClient.send_json_message, dumps, hbad]
  · simp [ANARIUSDClient.send_json_message, hd]

/-- Witness for C7: an unserializable value and the serializable value with
key "a" and value 1. -/
theorem claim_C7_witness :
    hasBadV PyVal.badval = true ∧
    ANARIUSDClient.send_json_message envBase cConn PyVal.badval =
      ⟨false, ⟨[Report.errorEncodingJSON], [], 0⟩, cConn⟩ ∧
    dumps vA1 = Except.ok (String.mk (encVal vA1 0)) ∧
    ANARIUSDClient.send_json_message envBase cConn vA1 =
      ANARIUSDClient.send_message envBase cConn (String.mk (encVal vA1 0)) :=
  ⟨rfl, (claim_C7 envBase cConn PyVal.badval).1 rfl, rfl,
   (claim_C7 envBase cConn vA1).2 (String.mk (encVal vA1 0)) rfl⟩

/-! ## The JSON round trip (claim C8) -/

lemma takeWhile_append_all (p : Char → Bool) : ∀ l r : List Char,
    (∀ c ∈ l, p c = true) → headNot p r → (l ++ r).takeWhile p = l := by
  intro l r hl hr
  induction l with
  | nil =>
    cases r with
    | nil => rfl
    | cons c rr => simp [headNot] at hr; simp [List.takeWhile_cons, hr]
  | cons c l ih =>
    have hc : p c = true := hl c (by simp)
    simp [List.takeWhile_cons, hc]
    exact ih (fun d hd => hl d (by simp [hd]))

lemma dropWhile_append_all (p : Char → Bool) : ∀ l r : List Char,
    (∀ c ∈ l, p c = true) → headNot p r → (l ++ r).dropWhile p = r := by
  intro l r hl hr
  induction l with
  | nil =>
    cases r with
    | nil => rfl
    | cons c rr => simp [headNot] at hr; simp [List.dropWhile_cons, hr]
  | cons c l ih =>
    have hc : p c = true := hl c (by simp)
    simp [List.dropWhile_cons, hc]
    exact ih (fun d hd => hl d (by simp [hd]))

lemma dropWhile_append_sat (p : Char → Bool) : ∀ l r : List Char,
    (∀ c ∈ l, p c = true) → (l ++ r).dropWhile p = r.dropWhile p := by
  intro l r hl
  induction l with
  | nil => rfl
  | cons c l ih =>
    have hc : p c = true := hl c (by simp)
    simp [List.dropWhile_cons, hc]
    exact ih (fun d hd => hl d (by simp [hd]))

lemma skipWs_leading (ws l : List Char) (h : ∀ c ∈ ws, isWsC c = true) :
    skipWs (ws ++ l) = skipWs l :=
  dropWhile_append_sat isWsC ws l h

lemma spaces_ws (n : Nat) : ∀ c ∈ spaces n, isWsC c = true := by
  intro c hc
  simp [spaces] at hc
  simp [hc, isWsC]

lemma skipWs_spaces (n : Nat) (l : List Char) : skipWs (spaces n ++ l) = skipWs l :=
  skipWs_leading _ _ (spaces_ws n)

lemma skipWs_not (c : Char) (l : List Char) (h : isWsC c = false) :
    skipWs (c :: l) = c :: l := by
  simp [skipWs, List.dropWhile_cons, h]

lemma hexVal_hexDigit (k : Nat) (h : k < 16) : hexVal (hexDigit k) = some k := by
  interval_cases k <;> decide

lemma readHex4_hex4 (n : Nat) (h : n < 65536) (r : List Char) :
    readHex4 (hex4 n ++ r) = some (n, r) := by
  simp only [hex4, List.cons_append, List.nil_append, readHex4,
    hexVal_hexDigit (n / 4096 % 16) (by omega), hexVal_hexDigit (n / 256 % 16) (by omega),
    hexVal_hexDigit (n / 16 % 16) (by omega), hexVal_hexDigit (n % 16) (by omega)]
  congr 1
  ext <;> simp <;> omega

lemma toNat_ofNat_valid (n : Nat) (h : n.isValidChar) : (Char.ofNat n).toNat = n := by
  unfold Char.ofNat
  rw [dif_pos h]
  rfl

lemma toNat_digitChar10 (d : Nat) (h : d < 10) : (digitChar10 d).toNat = 48 + d := by
  unfold digitChar10
  exact toNat_ofNat_valid _ (Or.inl (by omega))

lemma isDigit_digitChar10 (d : Nat) (h : d < 10) : isDigitC (digitChar10 d) = true := by
  simp [isDigitC, toNat_digitChar10 d h]
  omega

lemma natCharsAux_all_digits : ∀ fuel n : Nat, ∀ c ∈ natCharsAux fuel n, isDigitC c = true := by
  intro fuel
  induction fuel with
  | zero =>
    intro n c hc
    simp [natCharsAux] at hc
  | succ fuel ih =>
    intro n c hc
    by_cases h : n = 0
    · simp [natCharsAux, h] at hc
    · simp only [natCharsAux, if_neg h, List.mem_cons] at hc
      rcases hc with hc | hc
      · subst hc
        exact isDigit_digitChar10 _ (Nat.mod_lt _ (by omega))
      · exact ih _ c hc

lemma natChars_all_digits (n : Nat) : ∀ c ∈ natChars n, isDigitC c = true := by
  intro c hc
  unfold natChars at hc
  split at hc
  · simp at hc
    subst hc
    decide
  · rw [List.mem_reverse] at hc
    exact natCharsAux_all_digits n n c hc

lemma natChars_ne_nil (n : Nat) : natChars n ≠ [] := by
  unfold natChars
  split
  · simp
  · next h =>
    obtain ⟨k, hk⟩ : ∃ k, n = k + 1 := ⟨n - 1, by omega⟩
    subst hk
    simp [natCharsAux]

lemma ofDigits_natCharsAux : ∀ fuel n : Nat, n ≤ fuel →
    Nat.ofDigits 10 ((natCharsAux fuel n).map (fun c => c.toNat - 48)) = n := by
  intro fuel
  induction fuel with
  | zero =>
    intro n h
    interval_cases n
    simp [natCharsAux]
  | succ fuel ih =>
    intro n h
    by_cases hz : n = 0
    · simp [natCharsAux, hz]
    · simp only [natCharsAux, if_neg hz, List.map_cons, Nat.ofDigits_cons]
      rw [toNat_digitChar10 _ (Nat.mod_lt _ (by omega))]
      rw [ih (n / 10) (by omega)]
      omega

lemma digitsToNat_natChars (n : Nat) : digitsToNat (natChars n) = n := by
  unfold natChars digitsToNat
  split
  · next h =>
    subst h
    decide
  · rw [List.map_reverse, List.reverse_reverse]
    exact ofDigits_natCharsAux n n (Nat.le_refl n)

lemma headNot_digits_natChars (n : Nat) (rest : List Char) (h : headNot isDigitC rest) :
    ((natChars n ++ rest).takeWhile isDigitC = natChars n) ∧
    ((natChars n ++ rest).dropWhile isDigitC = rest) :=
  ⟨takeWhile_append_all _ _ _ (natChars_all_digits n) h,
   dropWhile_append_all _ _ _ (natChars_all_digits n) h⟩

lemma parseNumber_natChars (n : Nat) (rest : List Char) (h : headNot isDigitC rest) :
    parseNumber (natChars n ++ rest) = some ((n : Int), rest) := by
  rcases List.exists_cons_of_ne_nil (natChars_ne_nil n) with ⟨c, cs, hc⟩
  have hdig : isDigitC c = true := natChars_all_digits n c (by rw [hc]; simp)
  have hne : c ≠ '-' := by
    intro he
    subst he
    simp [isDigitC] at hdig
  rw [hc, List.cons_append]
  unfold parseNumber
  split
  · next r heq => exact absurd (List.cons.injEq .. ▸ heq) (by simp [hne])
  · have h1 : ((c :: cs) ++ rest).takeWhile isDigitC = c :: cs := by
      rw [← hc]
      exact (headNot_digits_natChars n rest h).1
    have h2 : ((c :: cs) ++ rest).dropWhile isDigitC = rest := by
      rw [← hc]
      exact (headNot_digits_natChars n rest h).2
    rw [List.cons_append] at h1 h2
    simp only [h1, h2]
    have hnn : c :: cs ≠ [] := by simp
    simp [hnn, ← hc, digitsToNat_natChars, natChars_ne_nil]

lemma parseNumber_intChars (n : Int) (rest : List Char) (h : headNot isDigitC rest) :
    parseNumber (intChars n ++ rest) = some (n, rest) := by
  unfold intChars
  split
  · next hneg =>
    rw [List.cons_append]
    unfold parseNumber
    have h1 := (headNot_digits_natChars (-n).toNat rest h).1
    have h2 := (headNot_digits_natChars (-n).toNat rest h).2
    simp only [h1, h2, natChars_ne_nil, if_neg, digitsToNat_natChars]
    have hcast : (((-n).toNat : Nat) : Int) = -n := by omega
    rw [hcast]
    simp
  · next hpos =>
    rw [parseNumber_natChars _ _ h]
    have hcast : ((n.toNat : Nat) : Int) = n := by omega
    rw [hcast]


lemma char_valid_range (c : Char) : c.toNat < 55296 ∨ (57343 < c.toNat ∧ c.toNat < 1114112) := by
  have h := c.valid
  unfold UInt32.isValidChar at h
  unfold Nat.isValidChar at h
  exact h

lemma psb_quote (f : Nat) (zs : List Char) :
    parseStringBody (f + 1) ('"' :: zs) = some ([], zs) := rfl

lemma psb_esc (f : Nat) (zs : List Char) :
    parseStringBody (f + 1) ('\\' :: zs) =
      match parseEscape zs with
      | none => none
      | some (d, r) => (parseStringBody f r).map (fun p => (d :: p.1, p.2)) := rfl

lemma psb_lit (f : Nat) (c : Char) (zs : List Char) (h1 : ¬c = '"') (h2 : ¬c = '\\') :
    parseStringBody (f + 1) (c :: zs) =
      (parseStringBody f zs).map (fun p => (c :: p.1, p.2)) := by
  simp only [parseStringBody]
  rw [if_neg h1, if_neg h2]

lemma parseEscape_u_single (n : Nat) (r : List Char) (hn : n < 65536)
    (hval : (decide (55296 ≤ n) && decide (n ≤ 56319)) = false) :
    parseEscape ('u' :: (hex4 n ++ r)) = some (Char.ofNat n, r) := by
  simp [parseEscape, readHex4_hex4 n hn, hval]

lemma parseEscape_u_pair (hi lo : Nat) (r : List Char)
    (hhi : hi < 65536) (hlo : lo < 65536)
    (hhir : (decide (55296 ≤ hi) && decide (hi ≤ 56319)) = true)
    (hlor : (decide (56320 ≤ lo) && decide (lo ≤ 57343)) = true) :
    parseEscape ('u' :: (hex4 hi ++ '\\' :: 'u' :: (hex4 lo ++ r))) =
      some (Char.ofNat (65536 + (hi - 55296) * 1024 + (lo - 56320)), r) := by
  simp [parseEscape, readHex4_hex4 hi hhi, readHex4_hex4 lo hlo, hhir, hlor]

lemma psb_esc_step (f : Nat) (c : Char) (suf tail out rest : List Char)
    (hes : parseEscape (suf ++ tail) = some (c, tail))
    (ih : parseStringBody f tail = some (out, rest)) :
    parseStringBody (f + 1) ('\\' :: (suf ++ tail)) = some (c :: out, rest) := by
  rw [psb_esc, hes]
  simp [ih]

lemma escChar_parse (c : Char) (f : Nat) (tail out rest : List Char)
    (ih : parseStringBody f tail = some (out, rest)) :
    parseStringBody (f + 1) (escChar c ++ tail) = some (c :: out, rest) := by
  by_cases h1 : c = '"'
  · subst h1
    exact psb_esc_step f '"' ['"'] tail out rest rfl ih
  by_cases h2 : c = '\\'
  · subst h2
    exact psb_esc_step f '\\' ['\\'] tail out rest rfl ih
  by_cases h3 : c.toNat = 10
  · have hc : c = '\n' := by rw [← Char.ofNat_toNat c, h3]
    subst hc
    exact psb_esc_step f '\n' ['n'] tail out rest rfl ih
  by_cases h4 : c.toNat = 9
  · have hc : c = '\t' := by rw [← Char.ofNat_toNat c, h4]
    subst hc
    exact psb_esc_step f '\t' ['t'] tail out rest rfl ih
  by_cases h5 : c.toNat = 13
  · have hc : c = '\r' := by rw [← Char.ofNat_toNat c, h5]
    subst hc
    exact psb_esc_step f '\r' ['r'] tail out rest rfl ih
  by_cases h6 : c.toNat = 8
  · have hc : c = Char.ofNat 8 := by rw [← Char.ofNat_toNat c, h6]
    subst hc
    exact psb_esc_step f (Char.ofNat 8) ['b'] tail out rest rfl ih
  by_cases h7 : c.toNat = 12
  · have hc : c = Char.ofNat 12 := by rw [← Char.ofNat_toNat c, h7]
    subst hc
    exact psb_esc_step f (Char.ofNat 12) ['f'] tail out rest rfl ih
  by_cases h8 : 32 ≤ c.toNat ∧ c.toNat ≤ 126
  · have he : escChar c = [c] := by
      unfold escChar
      rw [if_neg h1, if_neg h2, if_neg h3, if_neg h4, if_neg h5, if_neg h6, if_neg h7, if_pos h8]
    rw [he, List.cons_append, List.nil_append, psb_lit f c tail h1 h2, ih]
    rfl
  by_cases h9 : c.toNat < 65536
  · have he : escChar c = '\\' :: 'u' :: hex4 c.toNat := by
      unfold escChar
      rw [if_neg h1, if_neg h2, if_neg h3, if_neg h4, if_neg h5, if_neg h6, if_neg h7,
        if_neg h8, if_pos h9]
    have hval : (decide (55296 ≤ c.toNat) && decide (c.toNat ≤ 56319)) = false := by
      rcases char_valid_range c with hv | hv <;> simp <;> omega
    have hes : parseEscape (('u' :: hex4 c.toNat) ++ tail) = some (c, tail) := by
      rw [List.cons_append, parseEscape_u_single c.toNat tail h9 hval, Char.ofNat_toNat]
    have := psb_esc_step f c ('u' :: hex4 c.toNat) tail out rest hes ih
    rw [he, List.cons_append]
    exact this
  · have he : escChar c = '\\' :: 'u' :: hex4 (55296 + (c.toNat - 65536) / 1024) ++
        '\\' :: 'u' :: hex4 (56320 + (c.toNat - 65536) % 1024) := by
      unfold escChar
      rw [if_neg h1, if_neg h2, if_neg h3, if_neg h4, if_neg h5, if_neg h6, if_neg h7,
        if_neg h8, if_neg h9]
    rcases char_valid_range c with hv | hv
    · omega
    · have hhi : 55296 + (c.toNat - 65536) / 1024 < 65536 := by omega
      have hlo : 56320 + (c.toNat - 65536) % 1024 < 65536 := by omega
      have hhir : (decide (55296 ≤ 55296 + (c.toNat - 65536) / 1024) &&
          decide (55296 + (c.toNat - 65536) / 1024 ≤ 56319)) = true := by
        simp
        omega
      have hlor : (decide (56320 ≤ 56320 + (c.toNat - 65536) % 1024) &&
          decide (56320 + (c.toNat - 65536) % 1024 ≤ 57343)) = true := by
        simp
        omega
      have harith : Char.ofNat (65536 + (55296 + (c.toNat - 65536) / 1024 - 55296) * 1024 +
          (56320 + (c.toNat - 65536) % 1024 - 56320)) = c := by
        have heq : 65536 + (55296 + (c.toNat - 65536) / 1024 - 55296) * 1024 +
            (56320 + (c.toNat - 65536) % 1024 - 56320) = c.toNat := by omega
        rw [heq, Char.ofNat_toNat]
      have hes : parseEscape ('u' :: (hex4 (55296 + (c.toNat - 65536) / 1024) ++
          '\\' :: 'u' :: (hex4 (56320 + (c.toNat - 65536) % 1024) ++ tail))) = some (c, tail) := by
        rw [parseEscape_u_pair _ _ tail hhi hlo hhir hlor, harith]
      have hes2 : parseEscape (('u' :: (hex4 (55296 + (c.toNat - 65536) / 1024) ++
          '\\' :: 'u' :: hex4 (56320 + (c.toNat - 65536) % 1024))) ++ tail) = some (c, tail) := by
        simpa only [List.cons_append, List.append_assoc] using hes
      have hstep := psb_esc_step f c ('u' :: (hex4 (55296 + (c.toNat - 65536) / 1024) ++
          '\\' :: 'u' :: hex4 (56320 + (c.toNat - 65536) % 1024))) tail out rest hes2 ih
      rw [he]
      simpa only [List.cons_append, List.append_assoc] using hstep

lemma parseStringBody_escString : ∀ (s rest : List Char) (f : Nat), s.length < f →
    parseStringBody f (escString s ++ '"' :: rest) = some (s, rest) := by
  intro s
  induction s with
  | nil =>
    intro rest f hf
    cases f with
    | zero => omega
    | succ f =>
      show parseStringBody (f + 1) ([] ++ '"' :: rest) = some ([], rest)
      rw [List.nil_append, psb_quote]
  | cons c s ih =>
    intro rest f hf
    cases f with
    | zero => omega
    | succ f =>
      have hesc : escString (c :: s) = escChar c ++ escString s := by
        simp [escString]
      rw [hesc, List.append_assoc]
      exact escChar_parse c f _ _ _ (ih rest f (by simp at hf; omega))

lemma escString_nil : escString [] = [] := rfl

lemma pcostV_pos (v : PyVal) : 1 ≤ pcostV v := by
  cases v with
  | arr xs => cases xs <;> simp [pcostV]
  | dict kvs => cases kvs <;> simp [pcostV]
  | str s => simp [pcostV]
  | _ => simp [pcostV]

lemma pcostA_pos (xs : PyArr) : 1 ≤ pcostA xs := by
  cases xs <;> simp [pcostA]

lemma pcostO_pos (kvs : PyObj) : 1 ≤ pcostO kvs := by
  cases kvs <;> simp [pcostO]

lemma ne_of_toNat_ne (c d : Char) (h : c.toNat ≠ d.toNat) : c ≠ d := by
  intro he
  subst he
  exact h rfl

lemma isWs_digit_false (c : Char) (h : isDigitC c = true) : isWsC c = false := by
  simp only [isDigitC, Bool.and_eq_true, decide_eq_true_eq] at h
  simp only [isWsC, Bool.or_eq_false_iff, decide_eq_false_iff_not]
  have hsp : (' ').toNat = 32 := rfl
  have hnl : ('\n').toNat = 10 := rfl
  have htb : ('\t').toNat = 9 := rfl
  have hcr : ('\r').toNat = 13 := rfl
  exact ⟨⟨⟨ne_of_toNat_ne c ' ' (by omega), ne_of_toNat_ne c '\n' (by omega)⟩,
    ne_of_toNat_ne c '\t' (by omega)⟩, ne_of_toNat_ne c '\r' (by omega)⟩

lemma encVal_head (v : PyVal) (ind : Nat) (h : hasBadV v = false) :
    ∃ c cs, encVal v ind = c :: cs ∧ isWsC c = false ∧ c ≠ ']' := by
  cases v with
  | null => exact ⟨'n', _, rfl, by decide, by decide⟩
  | bool b =>
    cases b
    · exact ⟨'f', _, rfl, by decide, by decide⟩
    · exact ⟨'t', _, rfl, by decide, by decide⟩
  | int n =>
    show ∃ c cs, intChars n = c :: cs ∧ isWsC c = false ∧ c ≠ ']'
    unfold intChars
    split
    · exact ⟨'-', _, rfl, by decide, by decide⟩
    · rcases List.exists_cons_of_ne_nil (natChars_ne_nil n.toNat) with ⟨c, cs, hc⟩
      have hdig : isDigitC c = true := natChars_all_digits _ c (by rw [hc]; simp)
      refine ⟨c, cs, hc, isWs_digit_false c hdig, ?_⟩
      apply ne_of_toNat_ne
      simp only [isDigitC, Bool.and_eq_true, decide_eq_true_eq] at hdig
      have hrb : (']').toNat = 93 := rfl
      omega
  | str s => exact ⟨'"', _, rfl, by decide, by decide⟩
  | arr xs =>
    cases xs
    · exact ⟨'[', _, rfl, by decide, by decide⟩
    · exact ⟨'[', _, rfl, by decide, by decide⟩
  | dict kvs =>
    cases kvs
    · exact ⟨lbrace, _, rfl, by decide, by decide⟩
    · exact ⟨lbrace, _, rfl, by decide, by decide⟩
  | badval => simp [hasBadV] at h


lemma headNot_arrTail (tl : PyArr) (ind jnd : Nat) (rest : List Char) :
    headNot isDigitC (encArrTail tl ind ++ '\n' :: spaces jnd ++ ']' :: rest) := by
  cases tl
  · show headNot isDigitC ([] ++ '\n' :: spaces jnd ++ ']' :: rest)
    rw [List.nil_append]
    show isDigitC '\n' = false
    decide
  · show headNot isDigitC ((',' :: _) ++ '\n' :: spaces jnd ++ ']' :: rest)
    rw [List.cons_append]
    show isDigitC ',' = false
    decide

lemma headNot_objTail (tl : PyObj) (ind jnd : Nat) (rest : List Char) :
    headNot isDigitC (encObjTail tl ind ++ '\n' :: spaces jnd ++ rbrace :: rest) := by
  cases tl
  · show headNot isDigitC ([] ++ '\n' :: spaces jnd ++ rbrace :: rest)
    rw [List.nil_append]
    show isDigitC '\n' = false
    decide
  · show headNot isDigitC ((',' :: _) ++ '\n' :: spaces jnd ++ rbrace :: rest)
    rw [List.cons_append]
    show isDigitC ',' = false
    decide

lemma pf_val_ws (fuel : Nat) (ws s : List Char) (hws : ∀ c ∈ ws, isWsC c = true) :
    parseF fuel PMode.val (ws ++ s) = parseF fuel PMode.val s := by
  cases fuel with
  | zero => rfl
  | succ fuel => simp only [parseF, skipWs_leading ws s hws]

lemma case_null (fuel ind : Nat) (rest : List Char) :
    parseF (fuel + 1) PMode.val (encVal PyVal.null ind ++ rest) =
      some (PRes.v PyVal.null, rest) := by
  show parseF (fuel + 1) PMode.val (['n', 'u', 'l', 'l'] ++ rest) = _
  simp [parseF, skipWs, isWsC, lbrace]

lemma case_bool (fuel ind : Nat) (b : Bool) (rest : List Char) :
    parseF (fuel + 1) PMode.val (encVal (PyVal.bool b) ind ++ rest) =
      some (PRes.v (PyVal.bool b), rest) := by
  cases b
  · show parseF (fuel + 1) PMode.val (['f', 'a', 'l', 's', 'e'] ++ rest) = _
    simp [parseF, skipWs, isWsC, lbrace]
  · show parseF (fuel + 1) PMode.val (['t', 'r', 'u', 'e'] ++ rest) = _
    simp [parseF, skipWs, isWsC, lbrace]

lemma case_arrnil (fuel ind : Nat) (rest : List Char) :
    parseF (fuel + 1) PMode.val (encVal (PyVal.arr PyArr.nil) ind ++ rest) =
      some (PRes.v (PyVal.arr PyArr.nil), rest) := by
  show parseF (fuel + 1) PMode.val (['[', ']'] ++ rest) = _
  simp [parseF, skipWs, isWsC, lbrace]

lemma case_dictnil (fuel ind : Nat) (rest : List Char) :
    parseF (fuel + 1) PMode.val (encVal (PyVal.dict PyObj.nil) ind ++ rest) =
      some (PRes.v (PyVal.dict PyObj.nil), rest) := by
  show parseF (fuel + 1) PMode.val ([lbrace, rbrace] ++ rest) = _
  simp [parseF, skipWs, isWsC, lbrace, rbrace]

lemma case_str (fuel ind : Nat) (s rest : List Char) (hlen : s.length < fuel + 1) :
    parseF (fuel + 1) PMode.val (encVal (PyVal.str s) ind ++ rest) =
      some (PRes.v (PyVal.str s), rest) := by
  show parseF (fuel + 1) PMode.val (('"' :: escString s ++ ['"']) ++ rest) = _
  have hshape : ('"' :: escString s ++ ['"']) ++ rest = '"' :: (escString s ++ '"' :: rest) := by
    simp
  rw [hshape]
  simp only [parseF, skipWs_not '"' _ (by decide)]
  simp [parseStringBody_escString s rest (fuel + 1) hlen]

lemma case_int (fuel ind : Nat) (n : Int) (rest : List Char)
    (hrest : headNot isDigitC rest) :
    parseF (fuel + 1) PMode.val (encVal (PyVal.int n) ind ++ rest) =
      some (PRes.v (PyVal.int n), rest) := by
  show parseF (fuel + 1) PMode.val (intChars n ++ rest) = _
  by_cases hneg : n < 0
  · have hin : intChars n ++ rest = '-' :: (natChars (-n).toNat ++ rest) := by
      simp [intChars, if_pos hneg]
    rw [hin]
    simp only [parseF, skipWs_not '-' _ (by decide)]
    simp [lbrace]
    rw [← hin]
    exact parseNumber_intChars n rest hrest
  · have hin : intChars n ++ rest = natChars n.toNat ++ rest := by
      simp [intChars, if_neg hneg]
    rcases List.exists_cons_of_ne_nil (natChars_ne_nil n.toNat) with ⟨c, cs, hc⟩
    have hdig : isDigitC c = true := natChars_all_digits _ c (by rw [hc]; simp)
    have hdig2 : 48 ≤ c.toNat ∧ c.toNat ≤ 57 := by
      simpa [isDigitC, Bool.and_eq_true, decide_eq_true_eq] using hdig
    have hq : ¬c = '"' := ne_of_toNat_ne c '"' (by have : ('"').toNat = 34 := rfl; omega)
    have hb : ¬c = '[' := ne_of_toNat_ne c '[' (by have : ('[').toNat = 91 := rfl; omega)
    have hl : ¬c = lbrace := ne_of_toNat_ne c lbrace (by have : lbrace.toNat = 123 := rfl; omega)
    have ht : ¬c = 't' := ne_of_toNat_ne c 't' (by have : ('t').toNat = 116 := rfl; omega)
    have hf : ¬c = 'f' := ne_of_toNat_ne c 'f' (by have : ('f').toNat = 102 := rfl; omega)
    have hn : ¬c = 'n' := ne_of_toNat_ne c 'n' (by have : ('n').toNat = 110 := rfl; omega)
    have hshape : natChars n.toNat ++ rest = c :: (cs ++ rest) := by rw [hc]; simp
    rw [hin, hshape]
    simp only [parseF, skipWs_not c _ (isWs_digit_false c hdig)]
    simp [hq, hb, hl, ht, hf, hn, hdig]
    rw [← hshape, ← hin]
    exact parseNumber_intChars n rest hrest

lemma nl_spaces_ws (k : Nat) : ∀ c ∈ '\n' :: spaces k, isWsC c = true := by
  intro c hc
  rcases List.mem_cons.mp hc with h | h
  · subst h
    decide
  · exact spaces_ws _ c h

lemma case_arrcons (fuel ind : Nat) (x : PyVal) (tl : PyArr) (rest : List Char)
    (ih1 : ParseOkV fuel) (ih2 : ParseOkA fuel)
    (hbx : hasBadV x = false) (hbtl : hasBadA tl = false)
    (hcx : pcostV x ≤ fuel) (hctl : pcostA tl ≤ fuel)
    (hrest : headNot isDigitC rest) :
    parseF (fuel + 1) PMode.val (encVal (PyVal.arr (PyArr.cons x tl)) ind ++ rest) =
      some (PRes.v (PyVal.arr (PyArr.cons x tl)), rest) := by
  rcases encVal_head x (ind + 2) hbx with ⟨c, cs, hcx2, hnws, hne⟩
  have hshape : encVal (PyVal.arr (PyArr.cons x tl)) ind ++ rest =
      '[' :: (('\n' :: spaces (ind + 2)) ++ (encVal x (ind + 2) ++
        (encArrTail tl (ind + 2) ++ '\n' :: spaces ind ++ ']' :: rest))) := by
    show ('[' :: '\n' :: spaces (ind + 2) ++ encVal x (ind + 2) ++ encArrTail tl (ind + 2) ++
      '\n' :: spaces ind ++ [']']) ++ rest = _
    simp
  rw [hshape]
  have hsw : skipWs (('\n' :: spaces (ind + 2)) ++ (encVal x (ind + 2) ++
      (encArrTail tl (ind + 2) ++ '\n' :: spaces ind ++ ']' :: rest))) =
      c :: (cs ++ (encArrTail tl (ind + 2) ++ '\n' :: spaces ind ++ ']' :: rest)) := by
    rw [skipWs_leading _ _ (nl_spaces_ws (ind + 2)), hcx2, List.cons_append,
      skipWs_not c _ hnws]
  have hval : parseF fuel PMode.val
      (c :: (cs ++ (encArrTail tl (ind + 2) ++ '\n' :: spaces ind ++ ']' :: rest))) =
      some (PRes.v x, encArrTail tl (ind + 2) ++ '\n' :: spaces ind ++ ']' :: rest) := by
    rw [← List.cons_append, ← hcx2]
    exact ih1 x (ind + 2) _ hbx hcx (headNot_arrTail tl (ind + 2) ind rest)
  have htail : parseF fuel PMode.arrTail
      (encArrTail tl (ind + 2) ++ '\n' :: spaces ind ++ ']' :: rest) =
      some (PRes.items tl, rest) :=
    ih2 tl (ind + 2) ind rest hbtl hctl hrest
  simp only [parseF, skipWs_not '[' _ (by decide)]
  simp [lbrace]
  simp only [List.cons_append, List.append_assoc] at hsw hval htail
  rw [hsw]
  simp [hne, hval, htail]

lemma sp_ws : ∀ c ∈ [' '], isWsC c = true := by
  intro c hc
  simp at hc
  subst hc
  decide

lemma case_dictcons (fuel ind : Nat) (k : List Char) (v : PyVal) (tl : PyObj)
    (rest : List Char)
    (ih1 : ParseOkV fuel) (ih3 : ParseOkO fuel)
    (hbv : hasBadV v = false) (hbtl : hasBadO tl = false)
    (hkl : k.length < fuel + 1) (hcv : pcostV v ≤ fuel) (hctl : pcostO tl ≤ fuel)
    (hrest : headNot isDigitC rest) :
    parseF (fuel + 1) PMode.val (encVal (PyVal.dict (PyObj.cons k v tl)) ind ++ rest) =
      some (PRes.v (PyVal.dict (PyObj.cons k v tl)), rest) := by
  have hshape : encVal (PyVal.dict (PyObj.cons k v tl)) ind ++ rest =
      lbrace :: (('\n' :: spaces (ind + 2)) ++ ('"' :: (escString k ++ '"' ::
        (':' :: ' ' :: (encVal v (ind + 2) ++ (encObjTail tl (ind + 2) ++
          '\n' :: spaces ind ++ rbrace :: rest)))))) := by
    show (lbrace :: '\n' :: spaces (ind + 2) ++ ('"' :: escString k ++ ['"']) ++ ':' :: ' ' ::
      encVal v (ind + 2) ++ encObjTail tl (ind + 2) ++ '\n' :: spaces ind ++ [rbrace]) ++ rest = _
    simp
  rw [hshape]
  have hsw : skipWs (('\n' :: spaces (ind + 2)) ++ ('"' :: (escString k ++ '"' ::
      (':' :: ' ' :: (encVal v (ind + 2) ++ (encObjTail tl (ind + 2) ++
        '\n' :: spaces ind ++ rbrace :: rest)))))) =
      '"' :: (escString k ++ '"' :: (':' :: ' ' :: (encVal v (ind + 2) ++
        (encObjTail tl (ind + 2) ++ '\n' :: spaces ind ++ rbrace :: rest)))) := by
    rw [skipWs_leading _ _ (nl_spaces_ws (ind + 2)), skipWs_not '"' _ (by decide)]
  have hkey : parseStringBody (fuel + 1) (escString k ++ '"' ::
      (':' :: ' ' :: (encVal v (ind + 2) ++ (encObjTail tl (ind + 2) ++
        '\n' :: spaces ind ++ rbrace :: rest)))) =
      some (k, ':' :: ' ' :: (encVal v (ind + 2) ++ (encObjTail tl (ind + 2) ++
        '\n' :: spaces ind ++ rbrace :: rest))) :=
    parseStringBody_escString k _ (fuel + 1) hkl
  have hval : parseF fuel PMode.val (' ' :: (encVal v (ind + 2) ++
      (encObjTail tl (ind + 2) ++ '\n' :: spaces ind ++ rbrace :: rest))) =
      some (PRes.v v, encObjTail tl (ind + 2) ++ '\n' :: spaces ind ++ rbrace :: rest) := by
    rw [show (' ' :: (encVal v (ind + 2) ++ (encObjTail tl (ind + 2) ++
      '\n' :: spaces ind ++ rbrace :: rest))) = [' '] ++ (encVal v (ind + 2) ++
      (encObjTail tl (ind + 2) ++ '\n' :: spaces ind ++ rbrace :: rest)) from rfl]
    rw [pf_val_ws fuel [' '] _ sp_ws]
    exact ih1 v (ind + 2) _ hbv hcv (headNot_objTail tl (ind + 2) ind rest)
  have htail : parseF fuel PMode.objTail (encObjTail tl (ind + 2) ++
      '\n' :: spaces ind ++ rbrace :: rest) = some (PRes.fields tl, rest) :=
    ih3 tl (ind + 2) ind rest hbtl hctl hrest
  simp only [parseF, skipWs_not lbrace _ (by decide)]
  simp [show ¬(lbrace = '"') from by decide, show ¬(lbrace = '[') from by decide,
    show ¬(lbrace = 't') from by decide]
  simp only [List.cons_append, List.append_assoc] at hsw hkey hval htail
  rw [hsw]
  simp [show ¬('"' = rbrace) from by decide, hkey]
  rw [show skipWs (':' :: ' ' :: (encVal v (ind + 2) ++ (encObjTail tl (ind + 2) ++
    ('\n' :: (spaces ind ++ rbrace :: rest))))) = ':' :: ' ' :: (encVal v (ind + 2) ++
    (encObjTail tl (ind + 2) ++ ('\n' :: (spaces ind ++ rbrace :: rest)))) from
    skipWs_not ':' _ (by decide)]
  simp [hval, htail]

lemma case_arrTail_nil (fuel ind jnd : Nat) (rest : List Char) :
    parseF (fuel + 1) PMode.arrTail
      (encArrTail PyArr.nil ind ++ '\n' :: spaces jnd ++ ']' :: rest) =
      some (PRes.items PyArr.nil, rest) := by
  show parseF (fuel + 1) PMode.arrTail ([] ++ '\n' :: spaces jnd ++ ']' :: rest) = _
  rw [List.nil_append, show ('\n' :: spaces jnd ++ ']' :: rest) =
    ('\n' :: spaces jnd) ++ (']' :: rest) from by simp]
  simp only [parseF, skipWs_leading _ _ (nl_spaces_ws jnd), skipWs_not ']' _ (by decide)]
  simp

lemma case_arrTail_cons (fuel ind jnd : Nat) (y : PyVal) (ys : PyArr) (rest : List Char)
    (ih1 : ParseOkV fuel) (ih2 : ParseOkA fuel)
    (hby : hasBadV y = false) (hbys : hasBadA ys = false)
    (hcy : pcostV y ≤ fuel) (hcys : pcostA ys ≤ fuel)
    (hrest : headNot isDigitC rest) :
    parseF (fuel + 1) PMode.arrTail
      (encArrTail (PyArr.cons y ys) ind ++ '\n' :: spaces jnd ++ ']' :: rest) =
      some (PRes.items (PyArr.cons y ys), rest) := by
  have hshape : encArrTail (PyArr.cons y ys) ind ++ '\n' :: spaces jnd ++ ']' :: rest =
      ',' :: (('\n' :: spaces ind) ++ (encVal y ind ++ (encArrTail ys ind ++
        '\n' :: spaces jnd ++ ']' :: rest))) := by
    show (',' :: '\n' :: spaces ind ++ encVal y ind ++ encArrTail ys ind) ++
      '\n' :: spaces jnd ++ ']' :: rest = _
    simp
  rw [hshape]
  have hval : parseF fuel PMode.val (('\n' :: spaces ind) ++ (encVal y ind ++
      (encArrTail ys ind ++ '\n' :: spaces jnd ++ ']' :: rest))) =
      some (PRes.v y, encArrTail ys ind ++ '\n' :: spaces jnd ++ ']' :: rest) := by
    rw [pf_val_ws fuel _ _ (nl_spaces_ws ind)]
    exact ih1 y ind _ hby hcy (headNot_arrTail ys ind jnd rest)
  have htail : parseF fuel PMode.arrTail
      (encArrTail ys ind ++ '\n' :: spaces jnd ++ ']' :: rest) =
      some (PRes.items ys, rest) :=
    ih2 ys ind jnd rest hbys hcys hrest
  simp only [parseF, skipWs_not ',' _ (by decide)]
  simp only [List.cons_append, List.append_assoc] at hval htail
  simp [hval, htail]

lemma case_objTail_nil (fuel ind jnd : Nat) (rest : List Char) :
    parseF (fuel + 1) PMode.objTail
      (encObjTail PyObj.nil ind ++ '\n' :: spaces jnd ++ rbrace :: rest) =
      some (PRes.fields PyObj.nil, rest) := by
  show parseF (fuel + 1) PMode.objTail ([] ++ '\n' :: spaces jnd ++ rbrace :: rest) = _
  rw [List.nil_append, show ('\n' :: spaces jnd ++ rbrace :: rest) =
    ('\n' :: spaces jnd) ++ (rbrace :: rest) from by simp]
  simp only [parseF, skipWs_leading _ _ (nl_spaces_ws jnd), skipWs_not rbrace _ (by decide)]
  simp

lemma case_objTail_cons (fuel ind jnd : Nat) (k : List Char) (v : PyVal) (tl : PyObj)
    (rest : List Char)
    (ih1 : ParseOkV fuel) (ih3 : ParseOkO fuel)
    (hbv : hasBadV v = false) (hbtl : hasBadO tl = false)
    (hkl : k.length < fuel + 1) (hcv : pcostV v ≤ fuel) (hctl : pcostO tl ≤ fuel)
    (hrest : headNot isDigitC rest) :
    parseF (fuel + 1) PMode.objTail
      (encObjTail (PyObj.cons k v tl) ind ++ '\n' :: spaces jnd ++ rbrace :: rest) =
      some (PRes.fields (PyObj.cons k v tl), rest) := by
  have hshape : encObjTail (PyObj.cons k v tl) ind ++ '\n' :: spaces jnd ++ rbrace :: rest =
      ',' :: (('\n' :: spaces ind) ++ ('"' :: (escString k ++ '"' ::
        (':' :: ' ' :: (encVal v ind ++ (encObjTail tl ind ++
          '\n' :: spaces jnd ++ rbrace :: rest)))))) := by
    show (',' :: '\n' :: spaces ind ++ ('"' :: escString k ++ ['"']) ++ ':' :: ' ' ::
      encVal v ind ++ encObjTail tl ind) ++ '\n' :: spaces jnd ++ rbrace :: rest = _
    simp
  rw [hshape]
  have hsw : skipWs (('\n' :: spaces ind) ++ ('"' :: (escString k ++ '"' ::
      (':' :: ' ' :: (encVal v ind ++ (encObjTail tl ind ++
        '\n' :: spaces jnd ++ rbrace :: rest)))))) =
      '"' :: (escString k ++ '"' :: (':' :: ' ' :: (encVal v ind ++
        (encObjTail tl ind ++ '\n' :: spaces jnd ++ rbrace :: rest)))) := by
    rw [skipWs_leading _ _ (nl_spaces_ws ind), skipWs_not '"' _ (by decide)]
  have hkey : parseStringBody (fuel + 1) (escString k ++ '"' ::
      (':' :: ' ' :: (encVal v ind ++ (encObjTail tl ind ++
        '\n' :: spaces jnd ++ rbrace :: rest)))) =
      some (k, ':' :: ' ' :: (encVal v ind ++ (encObjTail tl ind ++
        '\n' :: spaces jnd ++ rbrace :: rest))) :=
    parseStringBody_escString k _ (fuel + 1) hkl
  have hval : parseF fuel PMode.val (' ' :: (encVal v ind ++ (encObjTail tl ind ++
      '\n' :: spaces jnd ++ rbrace :: rest))) =
      some (PRes.v v, encObjTail tl ind ++ '\n' :: spaces jnd ++ rbrace :: rest) := by
    rw [show (' ' :: (encVal v ind ++ (encObjTail tl ind ++
      '\n' :: spaces jnd ++ rbrace :: rest))) = [' '] ++ (encVal v ind ++
      (encObjTail tl ind ++ '\n' :: spaces jnd ++ rbrace :: rest)) from rfl]
    rw [pf_val_ws fuel [' '] _ sp_ws]
    exact ih1 v ind _ hbv hcv (headNot_objTail tl ind jnd rest)
  have htail : parseF fuel PMode.objTail (encObjTail tl ind ++
      '\n' :: spaces jnd ++ rbrace :: rest) = some (PRes.fields tl, rest) :=
    ih3 tl ind jnd rest hbtl hctl hrest
  simp only [parseF, skipWs_not ',' _ (by decide)]
  simp [show ¬(',' = rbrace) from by decide]
  simp only [List.cons_append, List.append_assoc] at hsw hkey hval htail
  rw [hsw]
  simp [show ¬('"' = rbrace) from by decide, hkey]
  rw [show skipWs (':' :: ' ' :: (encVal v ind ++ (encObjTail tl ind ++
    ('\n' :: (spaces jnd ++ rbrace :: rest))))) = ':' :: ' ' :: (encVal v ind ++
    (encObjTail tl ind ++ ('\n' :: (spaces jnd ++ rbrace :: rest)))) from
    skipWs_not ':' _ (by decide)]
  simp [hval, htail]

lemma parse_enc_all (fuel : Nat) : ParseOkV fuel ∧ ParseOkA fuel ∧ ParseOkO fuel := by
  induction fuel with
  | zero =>
    refine ⟨?_, ?_, ?_⟩
    · intro v ind rest _ hc _
      have := pcostV_pos v
      omega
    · intro xs ind jnd rest _ hc _
      have := pcostA_pos xs
      omega
    · intro kvs ind jnd rest _ hc _
      have := pcostO_pos kvs
      omega
  | succ fuel ih =>
    obtain ⟨ih1, ih2, ih3⟩ := ih
    refine ⟨?_, ?_, ?_⟩
    · intro v ind rest hbad hcost hrest
      cases v with
      | null => exact case_null fuel ind rest
      | bool b => exact case_bool fuel ind b rest
      | int n => exact case_int fuel ind n rest hrest
      | str s =>
        have hps : pcostV (PyVal.str s) = s.length + 1 := by simp [pcostV]
        exact case_str fuel ind s rest (by omega)
      | arr xs =>
        cases xs with
        | nil => exact case_arrnil fuel ind rest
        | cons x tl =>
          have hb2 : hasBadV x = false ∧ hasBadA tl = false := by
            simpa [hasBadV, hasBadA, Bool.or_eq_false_iff] using hbad
          have hcq : pcostV (PyVal.arr (PyArr.cons x tl)) = pcostV x + pcostA tl + 1 := by
            simp [pcostV]
          have h1 := pcostA_pos tl
          have h2 := pcostV_pos x
          exact case_arrcons fuel ind x tl rest ih1 ih2 hb2.1 hb2.2
            (by omega) (by omega) hrest
      | dict kvs =>
        cases kvs with
        | nil => exact case_dictnil fuel ind rest
        | cons k v2 tl =>
          have hb2 : hasBadV v2 = false ∧ hasBadO tl = false := by
            simpa [hasBadV, hasBadO, Bool.or_eq_false_iff] using hbad
          have hcq : pcostV (PyVal.dict (PyObj.cons k v2 tl)) =
              k.length + pcostV v2 + pcostO tl + 2 := by
            simp [pcostV]
          have h1 := pcostO_pos tl
          have h2 := pcostV_pos v2
          exact case_dictcons fuel ind k v2 tl rest ih1 ih3 hb2.1 hb2.2
            (by omega) (by omega) (by omega) hrest
      | badval => simp [hasBadV] at hbad
    · intro xs ind jnd rest hbad hcost hrest
      cases xs with
      | nil => exact case_arrTail_nil fuel ind jnd rest
      | cons y ys =>
        have hb2 : hasBadV y = false ∧ hasBadA ys = false := by
          simpa [hasBadA, Bool.or_eq_false_iff] using hbad
        have hcq : pcostA (PyArr.cons y ys) = pcostV y + pcostA ys + 1 := by simp [pcostA]
        have h1 := pcostA_pos ys
        have h2 := pcostV_pos y
        exact case_arrTail_cons fuel ind jnd y ys rest ih1 ih2 hb2.1 hb2.2
          (by omega) (by omega) hrest
    · intro kvs ind jnd rest hbad hcost hrest
      cases kvs with
      | nil => exact case_objTail_nil fuel ind jnd rest
      | cons k v2 tl =>
        have hb2 : hasBadV v2 = false ∧ hasBadO tl = false := by
          simpa [hasBadO, Bool.or_eq_false_iff] using hbad
        have hcq : pcostO (PyObj.cons k v2 tl) = k.length + pcostV v2 + pcostO tl + 2 := by
          simp [pcostO]
        have h1 := pcostO_pos tl
        have h2 := pcostV_pos v2
        exact case_objTail_cons fuel ind jnd k v2 tl rest ih1 ih3 hb2.1 hb2.2
          (by omega) (by omega) (by omega) hrest

lemma escChar_len_pos (c : Char) : 1 ≤ (escChar c).length := by
  unfold escChar
  split_ifs <;> simp [hex4]

lemma escString_len (s : List Char) : s.length ≤ (escString s).length := by
  induction s with
  | nil => simp [escString]
  | cons c s ih =>
    have h := escChar_len_pos c
    simp only [escString, List.flatMap_cons, List.length_append, List.length_cons] at ih ⊢
    omega

lemma sizeOf_pos_V (v : PyVal) : 1 ≤ sizeOf v := by
  cases v <;> simp

lemma sizeOf_pos_A (xs : PyArr) : 1 ≤ sizeOf xs := by
  cases xs <;> simp <;> omega

lemma sizeOf_pos_O (kvs : PyObj) : 1 ≤ sizeOf kvs := by
  cases kvs <;> simp <;> omega

lemma pcost_le_enc : ∀ N : Nat,
    (∀ v : PyVal, sizeOf v ≤ N → ∀ ind, pcostV v ≤ (encVal v ind).length + 1) ∧
    (∀ xs : PyArr, sizeOf xs ≤ N → ∀ ind, pcostA xs ≤ (encArrTail xs ind).length + 1) ∧
    (∀ kvs : PyObj, sizeOf kvs ≤ N → ∀ ind, pcostO kvs ≤ (encObjTail kvs ind).length + 1) := by
  intro N
  induction N with
  | zero =>
    refine ⟨?_, ?_, ?_⟩
    · intro v hsz
      have := sizeOf_pos_V v
      omega
    · intro xs hsz
      have := sizeOf_pos_A xs
      omega
    · intro kvs hsz
      have := sizeOf_pos_O kvs
      omega
  | succ N ih =>
    obtain ⟨ih1, ih2, ih3⟩ := ih
    refine ⟨?_, ?_, ?_⟩
    · intro v hsz ind
      cases v with
      | null => simp [pcostV, encVal]
      | bool b => cases b <;> simp [pcostV, encVal]
      | int n => simp [pcostV, encVal]
      | str s =>
        have h := escString_len s
        simp [pcostV, encVal]
        omega
      | arr xs =>
        cases xs with
        | nil => simp [pcostV, encVal]
        | cons x tl =>
          have hszx : sizeOf x ≤ N := by
            simp at hsz
            have := sizeOf_pos_A tl
            omega
          have hsztl : sizeOf tl ≤ N := by
            simp at hsz
            have := sizeOf_pos_V x
            omega
          have h1 := ih1 x hszx (ind + 2)
          have h2 := ih2 tl hsztl (ind + 2)
          simp [pcostV, encVal, spaces] at h1 h2 ⊢
          omega
      | dict kvs =>
        cases kvs with
        | nil => simp [pcostV, encVal]
        | cons k v2 tl =>
          have hszv : sizeOf v2 ≤ N := by
            simp at hsz
            have := sizeOf_pos_O tl
            omega
          have hsztl : sizeOf tl ≤ N := by
            simp at hsz
            have := sizeOf_pos_V v2
            omega
          have h1 := ih1 v2 hszv (ind + 2)
          have h3 := ih3 tl hsztl (ind + 2)
          have h := escString_len k
          simp [pcostV, encVal, spaces] at h1 h3 ⊢
          omega
      | badval => simp [pcostV, encVal]
    · intro xs hsz ind
      cases xs with
      | nil => simp [pcostA, encArrTail]
      | cons y ys =>
        have hszy : sizeOf y ≤ N := by
          simp at hsz
          have := sizeOf_pos_A ys
          omega
        have hszys : sizeOf ys ≤ N := by
          simp at hsz
          have := sizeOf_pos_V y
          omega
        have h1 := ih1 y hszy ind
        have h2 := ih2 ys hszys ind
        simp [pcostA, encArrTail, spaces] at h1 h2 ⊢
        omega
    · intro kvs hsz ind
      cases kvs with
      | nil => simp [pcostO, encObjTail]
      | cons k v2 tl =>
        have hszv : sizeOf v2 ≤ N := by
          simp at hsz
          have := sizeOf_pos_O tl
          omega
        have hsztl : sizeOf tl ≤ N := by
          simp at hsz
          have := sizeOf_pos_V v2
          omega
        have h1 := ih1 v2 hszv ind
        have h3 := ih3 tl hsztl ind
        have h := escString_len k
        simp [pcostO, encObjTail, spaces] at h1 h3 ⊢
        omega

lemma loads_dumps (v : PyVal) (s : String) (h : dumps v = Except.ok s) : loads s = some v := by
  have hbad : hasBadV v = false := by
    cases hb : hasBadV v
    · rfl
    · simp [dumps, hb] at h
  have hs : s = String.mk (encVal v 0) := by
    simp [dumps, hbad] at h
    exact h.symm
  subst hs
  unfold loads parseVal
  have hdata : (String.mk (encVal v 0)).data = encVal v 0 := rfl
  have hlen : (String.mk (encVal v 0)).length = (encVal v 0).length := rfl
  rw [hdata, hlen]
  have hle := (pcost_le_enc (sizeOf v)).1 v (Nat.le_refl _) 0
  have hmain := (parse_enc_all ((encVal v 0).length + 2)).1 v 0 [] hbad (by omega) trivial
  rw [List.append_nil] at hmain
  rw [hmain]
  simp [skipWs]

/-- Claim C8: for every JSON-serializable value v (in particular the dict
with key "a" and value 1), `send_json_message` on a connected client sends a
single text frame — one one-frame multipart message — whose content, parsed
back as JSON by the receiving side, deep-equals v: serialize-then-parse is
the identity. -/
theorem claim_C8 (env : Env) (c : Client) (v : PyVal) (s : String)
    (hconn : c.connected = true) (hsend : env.sendFailsAt = none)
    (hdump : dumps v = Except.ok s) :
    (ANARIUSDClient.send_json_message env c v).fx.sends = [⟨Frame.text s, false⟩] ∧
    multipartMessages (ANARIUSDClient.send_json_message env c v).fx.sends =
      [[Frame.text s]] ∧
    loads s = some v := by
  have hjson : ANARIUSDClient.send_json_message env c v =
      ANARIUSDClient.send_message env c s := by
    simp [ANARIUSDClient.send_json_message, hdump]
  rw [hjson]
  refine ⟨?_, ?_, loads_dumps v s hdump⟩
  · rcases hr : env.recv with r | _ | _ <;>
      simp [ANARIUSDClient.send_message, ANARIUSDClient.send_messageBody, attemptSends,
        hconn, hsend, hr]
  · rcases hr : env.recv with r | _ | _ <;>
      simp [ANARIUSDClient.send_message, ANARIUSDClient.send_messageBody, attemptSends,
        hconn, hsend, hr, multipartMessages, multipartAux]

/-- Witness for C8 at the value with key "a" and value 1. -/
theorem claim_C8_witness :
    cConn.connected = true ∧ envBase.sendFailsAt = none ∧
    dumps vA1 = Except.ok (String.mk (encVal vA1 0)) ∧
    multipartMessages (ANARIUSDClient.send_json_message envBase cConn vA1).fx.sends =
      [[Frame.text (String.mk (encVal vA1 0))]] ∧
    loads (String.mk (encVal vA1 0)) = some vA1 :=
  ⟨rfl, rfl, rfl,
   (claim_C8 envBase cConn vA1 (String.mk (encVal vA1 0)) rfl rfl rfl).2.1,
   (claim_C8 envBase cConn vA1 (String.mk (encVal vA1 0)) rfl rfl rfl).2.2⟩

example : loads (String.mk (encVal vA1 0)) = some vA1 := rfl
